import Mathlib

/-!
Shallow embedding of the call-signaling core of `gestorproyectos_websocket`
(`src/handlers/callHandler.js`) and proofs about its state machine.

User identities, socket identities and call identities are modelled as `Nat`.
JavaScript `Map`s become association lists with `aget`/`aset`/`adel` mirroring
`Map.get`/`Map.set`/`Map.delete`; JavaScript `Set`s become duplicate-free lists
with `smem`/`sadd`/`sdel`. Socket.IO rooms are modelled as a list of
(socket id, call id) memberships; every emission is resolved to the individual
receiving sockets, so `io.to(room).emit` produces one event per socket in the
room and `socket.to(room).emit` produces one event per socket in the room other
than the sender. The `call_<id>` identifier produced by `generateCallId` is
modelled by a monotone counter (`nextCallId`), reflecting that `Date.now` plus
the random suffix never reuses an identifier.  External inputs that the
handlers read (current timestamp, display names resolved from the database)
are passed as explicit parameters.
-/

namespace GestorCalls

set_option maxRecDepth 4000

/-- `Map.get`: value of the first entry with the given key. -/
def aget {β : Type} : List (Nat × β) → Nat → Option β
  | [], _ => none
  | p :: rest, k => if p.1 = k then some p.2 else aget rest k

/-- `Map.set`: replace the entry in place when the key is present, append
otherwise (JavaScript `Map.set` keeps insertion order on overwrite). -/
def aset {β : Type} : List (Nat × β) → Nat → β → List (Nat × β)
  | [], k, v => [(k, v)]
  | p :: rest, k, v => if p.1 = k then (k, v) :: rest else p :: aset rest k v

/-- `Map.delete`: drop the entries with the given key. -/
def adel {β : Type} : List (Nat × β) → Nat → List (Nat × β)
  | [], _ => []
  | p :: rest, k => if p.1 = k then adel rest k else p :: adel rest k

/-- `Set.has`. -/
def smem : List Nat → Nat → Bool
  | [], _ => false
  | y :: rest, x => if y = x then true else smem rest x

/-- `Set.add`: append when absent. -/
def sadd (s : List Nat) (x : Nat) : List Nat :=
  if smem s x then s else s ++ [x]

/-- `Set.delete`. -/
def sdel : List Nat → Nat → List Nat
  | [], _ => []
  | y :: rest, x => if y = x then sdel rest x else y :: sdel rest x

/-- `new Set(list)`: deduplicate keeping first occurrences. -/
def sdedup (l : List Nat) : List Nat :=
  l.foldl sadd []

/-- A live Socket.IO connection: its socket id and the authenticated user id. -/
structure Socket where
  sid : Nat
  userId : Nat
deriving DecidableEq

/-- An entry of a call's `participants` map
(`{ oderId, status, joinedAt }` in the source). -/
structure Participant where
  oderId : Nat
  status : String
  joinedAt : Nat
deriving DecidableEq

/-- A call session as stored in `activeCalls`. -/
structure Call where
  callId : Nat
  hostId : Nat
  hostName : String
  participants : List (Nat × Participant)
  pendingInvites : List Nat
  status : String
  startTime : Nat
  offer : String
  callType : String
deriving DecidableEq

/-- The whole mutable state touched by `CallHandler`: the connected sockets
(`io.sockets.sockets`), room memberships (socket id, call id), `activeCalls`,
`userCalls`, and the fresh-identifier counter. -/
structure ServerState where
  sockets : List Socket
  roomMembers : List (Nat × Nat)
  activeCalls : List (Nat × Call)
  userCalls : List (Nat × Nat)
  nextCallId : Nat
deriving DecidableEq

/-- Payloads of the outbound notifications the handlers emit. -/
inductive Payload where
  | callError (message : String)
  | callCreated (callId : Nat) (status : String) (invitedCount : Nat) (callType : String)
  | callIncoming (callId callerId : Nat) (callerName : String) (isGroupCall : Bool)
      (participantCount : Nat) (offer : String) (callType : String)
  | callIncomingInvite (callId callerId : Nat) (callerName invitedBy : String)
      (participantCount : Nat) (participants : List Nat) (offer : String) (callType : String)
  | callUsersUnavailable (userIds : List Nat)
  | participantJoined (callId userId : Nat) (userName : String) (participantCount : Nat)
  | callOffer (callId callerId : Nat) (offer : String) (participants : List Nat)
  | participantInvited (callId targetUserId invitedBy : Nat) (invitedByName : String)
  | participantRejected (callId userId : Nat)
  | participantLeft (callId userId : Nat) (userName : String) (participantCount : Nat)
      (reason : String)
  | callEnded (callId : Nat) (reason : String)
  | callChatMessage (callId senderId : Nat) (senderName content : String) (timestamp : Nat)
deriving DecidableEq

/-- One delivered notification: the receiving socket and the payload. -/
structure Event where
  target : Nat
  payload : Payload
deriving DecidableEq

/-- Whether an event is a `call_error` report. -/
def isErrorEvent (e : Event) : Bool :=
  match e.payload with
  | .callError _ => true
  | _ => false

/-- `getUserSockets`: all live connections of a user. -/
def getUserSockets (st : ServerState) (userId : Nat) : List Socket :=
  st.sockets.filter (fun s => s.userId == userId)

/-- `isUserInCall`: the user occupies an entry of `userCalls`. -/
def isUserInCall (st : ServerState) (userId : Nat) : Bool :=
  (aget st.userCalls userId).isSome

/-- Sockets currently joined to the room `call_<cid>`. -/
def roomSockets (st : ServerState) (cid : Nat) : List Nat :=
  (st.roomMembers.filter (fun m => m.2 == cid)).map (fun m => m.1)

/-- `io.to('call_' + cid).emit(...)`: one event per socket in the room. -/
def emitToRoom (st : ServerState) (cid : Nat) (pl : Payload) : List Event :=
  (roomSockets st cid).map (fun s => ⟨s, pl⟩)

/-- `socket.to('call_' + cid).emit(...)`: one event per socket in the room
other than the emitting socket. -/
def emitToRoomExcept (st : ServerState) (cid : Nat) (ex : Nat) (pl : Payload) : List Event :=
  ((roomSockets st cid).filter (fun s => !(s == ex))).map (fun s => ⟨s, pl⟩)

/-- `socket.join('call_' + cid)` (idempotent). -/
def joinRoom (rm : List (Nat × Nat)) (sid cid : Nat) : List (Nat × Nat) :=
  if rm.any (fun m => m.1 == sid && m.2 == cid) then rm else rm ++ [(sid, cid)]

/-- `socket.leave('call_' + cid)`. -/
def leaveRoom (rm : List (Nat × Nat)) (sid cid : Nat) : List (Nat × Nat) :=
  rm.filter (fun m => !(m.1 == sid && m.2 == cid))

/-- Payload of a `call_request` event.  `targetUserIds` is `some` when the
client sent an array, `none` when it sent the legacy scalar `targetUserId`. -/
structure ReqData where
  targetUserIds : Option (List Nat)
  targetUserId : Nat
  offer : String
  callType : Option String
deriving DecidableEq

/-- The effective target list of a call request:
`Array.isArray(targetUserIds) ? targetUserIds : [data.targetUserId]`. -/
def reqTargets (d : ReqData) : List Nat :=
  match d.targetUserIds with
  | some l => l
  | none => [d.targetUserId]

/-- A target is classified unavailable when it is already in a call or has no
live connection (the two `unavailable.push` branches of `handleCallRequest`). -/
def unavailPred (st : ServerState) (t : Nat) : Bool :=
  isUserInCall st t || (getUserSockets st t).isEmpty

/-- The `available` list built by the classification loop of
`handleCallRequest`: each eligible target paired with its sockets. -/
def reqAvail (st : ServerState) (targets : List Nat) : List (Nat × List Socket) :=
  targets.filterMap (fun t =>
    if isUserInCall st t then none
    else if (getUserSockets st t).isEmpty then none
    else some (t, getUserSockets st t))

/-- `handleCallRequest`.  `callerName` stands for the awaited
`getUserName(callerId)` database lookup and `now` for `Date.now()`. -/
def handleCallRequest (st : ServerState) (socket : Socket) (d : ReqData)
    (callerName : String) (now : Nat) : ServerState × List Event :=
  let callerId := socket.userId
  let targets := reqTargets d
  if isUserInCall st callerId then
    (st, [⟨socket.sid, .callError "Ya estás en una llamada"⟩])
  else
    let unavailable := targets.filter (unavailPred st)
    let available := reqAvail st targets
    if available.length == 0 then
      (st, [⟨socket.sid, .callError "Ningún usuario está disponible"⟩])
    else
      let callId := st.nextCallId
      let callType := d.callType.getD "audio"
      let call : Call :=
        { callId := callId
          hostId := callerId
          hostName := callerName
          participants := [(callerId, ⟨callerId, "connected", now⟩)]
          pendingInvites := sdedup (available.map (fun a => a.1))
          status := "ringing"
          startTime := now
          offer := d.offer
          callType := callType }
      let st1 : ServerState :=
        { st with
          activeCalls := aset st.activeCalls callId call
          userCalls := aset st.userCalls callerId callId
          roomMembers := joinRoom st.roomMembers socket.sid callId
          nextCallId := st.nextCallId + 1 }
      let incoming := (available.map (fun a =>
        a.2.map (fun ts => Event.mk ts.sid
          (.callIncoming callId callerId callerName (decide (targets.length > 1))
            (targets.length + 1) d.offer callType)))).flatten
      let unavailEv :=
        if unavailable.length > 0 then
          [Event.mk socket.sid (.callUsersUnavailable unavailable)]
        else []
      (st1, Event.mk socket.sid (.callCreated callId "ringing" available.length callType)
              :: incoming ++ unavailEv)

/-- Payload of `call_accept` / `call_reject`: `callId` and/or the legacy
`callerId` (host identity), each possibly absent. -/
structure AcceptData where
  callerId : Option Nat
  callId : Option Nat
deriving DecidableEq

/-- The legacy lookup of `handleCallAccept`/`handleCallReject`: first session
whose host is `callerId` and whose `pendingInvites` contains the acting user. -/
def findByHost (st : ServerState) (callerId : Option Nat) (oderId : Nat) : Option Call :=
  match callerId with
  | none => none
  | some cid =>
    (st.activeCalls.find? (fun p =>
      p.2.hostId == cid && smem p.2.pendingInvites oderId)).map (fun p => p.2)

/-- Session resolution shared by `handleCallAccept` and `handleCallReject`:
by call id when given and present (`let call = callId ?
this.activeCalls.get(callId) : null`), otherwise the legacy host lookup. -/
def resolveCall (st : ServerState) (d : AcceptData) (oderId : Nat) : Option Call :=
  match d.callId with
  | some c =>
    match aget st.activeCalls c with
    | some call => some call
    | none => findByHost st d.callerId oderId
  | none => findByHost st d.callerId oderId

/-- `handleCallAccept`.  `userName` stands for the awaited
`getUserName(oderId)` lookup and `now` for `Date.now()`. -/
def handleCallAccept (st : ServerState) (socket : Socket) (d : AcceptData)
    (userName : String) (now : Nat) : ServerState × List Event :=
  let oderId := socket.userId
  match resolveCall st d oderId with
  | none => (st, [⟨socket.sid, .callError "Llamada no encontrada"⟩])
  | some call =>
    let call1 : Call :=
      { call with
        pendingInvites := sdel call.pendingInvites oderId
        participants := aset call.participants oderId ⟨oderId, "connecting", now⟩
        status := "active" }
    let st1 : ServerState :=
      { st with
        activeCalls := aset st.activeCalls call.callId call1
        userCalls := aset st.userCalls oderId call.callId
        roomMembers := joinRoom st.roomMembers socket.sid call.callId }
    (st1, emitToRoom st1 call.callId
            (.participantJoined call.callId oderId userName call1.participants.length)
          ++ [⟨socket.sid, .callOffer call.callId call.hostId call.offer
                (call1.participants.map (fun p => p.1))⟩])

/-- Payload of `call_add_participant`. -/
structure AddData where
  callId : Nat
  targetUserId : Nat
deriving DecidableEq

/-- `handleAddParticipant`.  `inviterName` stands for the awaited
`getUserName(oderId)` lookup; the `getUsersInfo` participant-name rows are
modelled by the participant id list. -/
def handleAddParticipant (st : ServerState) (socket : Socket) (d : AddData)
    (inviterName : String) : ServerState × List Event :=
  let oderId := socket.userId
  match aget st.activeCalls d.callId with
  | none => (st, [⟨socket.sid, .callError "Llamada no encontrada"⟩])
  | some call =>
    if !(aget call.participants oderId).isSome then
      (st, [⟨socket.sid, .callError "No eres participante de esta llamada"⟩])
    else if (aget call.participants d.targetUserId).isSome
        || smem call.pendingInvites d.targetUserId then
      (st, [⟨socket.sid, .callError "El usuario ya está en la llamada o fue invitado"⟩])
    else if isUserInCall st d.targetUserId then
      (st, [⟨socket.sid, .callError "El usuario está en otra llamada"⟩])
    else
      let targetSockets := getUserSockets st d.targetUserId
      if targetSockets.isEmpty then
        (st, [⟨socket.sid, .callError "El usuario no está disponible"⟩])
      else
        let call1 : Call := { call with pendingInvites := sadd call.pendingInvites d.targetUserId }
        let st1 : ServerState := { st with activeCalls := aset st.activeCalls d.callId call1 }
        (st1,
          targetSockets.map (fun ts => Event.mk ts.sid
            (.callIncomingInvite d.callId call.hostId call.hostName inviterName
              (call.participants.length + 1) (call.participants.map (fun p => p.1))
              call.offer call.callType))
          ++ emitToRoom st1 d.callId
              (.participantInvited d.callId d.targetUserId oderId inviterName))

/-- `endCall`: notify the room, clear every participant's `userCalls` entry,
make every participant's sockets leave the room, drop the session. -/
def endCall (st : ServerState) (cid : Nat) (reason : String) : ServerState × List Event :=
  match aget st.activeCalls cid with
  | none => (st, [])
  | some call =>
    let evs := emitToRoom st cid (.callEnded cid reason)
    let pids := call.participants.map (fun p => p.1)
    let st1 : ServerState :=
      { st with
        userCalls := pids.foldl adel st.userCalls
        roomMembers := st.roomMembers.filter (fun m =>
          !(m.2 == cid && st.sockets.any (fun s => s.sid == m.1 && smem pids s.userId)))
        activeCalls := adel st.activeCalls cid }
    (st1, evs)

/-- `handleCallReject`: silent when no session resolves; otherwise remove the
user from `pendingInvites` and collapse the call when only the host is left
with nobody pending. -/
def handleCallReject (st : ServerState) (socket : Socket) (d : AcceptData) :
    ServerState × List Event :=
  let oderId := socket.userId
  match resolveCall st d oderId with
  | none => (st, [])
  | some call =>
    let call1 : Call := { call with pendingInvites := sdel call.pendingInvites oderId }
    let st1 : ServerState := { st with activeCalls := aset st.activeCalls call.callId call1 }
    let evs := emitToRoom st1 call.callId (.participantRejected call.callId oderId)
    if call1.participants.length == 1 && call1.pendingInvites.length == 0 then
      let r := endCall st1 call.callId "rejected"
      (r.1, evs ++ r.2)
    else
      (st1, evs)

/-- `handleCallEnd` (the `call_end` / leave event).  `userName` stands for
`socket.userName || 'Usuario'`. -/
def handleCallEnd (st : ServerState) (socket : Socket) (reason : String)
    (userName : String) : ServerState × List Event :=
  let userId := socket.userId
  match aget st.userCalls userId with
  | none => (st, [])
  | some cid =>
    match aget st.activeCalls cid with
    | none => (st, [])
    | some call =>
      let call1 : Call := { call with participants := adel call.participants userId }
      let st1 : ServerState :=
        { st with
          activeCalls := aset st.activeCalls cid call1
          userCalls := adel st.userCalls userId
          roomMembers := leaveRoom st.roomMembers socket.sid cid }
      let evs := emitToRoom st1 cid
        (.participantLeft cid userId userName call1.participants.length reason)
      if userId == call.hostId || call1.participants.length < 1 then
        let r := endCall st1 cid (if userId == call.hostId then "host_left" else "ended")
        (r.1, evs ++ r.2)
      else
        (st1, evs)

/-- `handleCallChatMessage`: requires `userCalls[userId]` to equal the named
call; relays to the room except the sending socket. -/
def handleCallChatMessage (st : ServerState) (socket : Socket) (callId : Nat)
    (content : String) (senderName : Option String) (now : Nat) : ServerState × List Event :=
  let userId := socket.userId
  match aget st.userCalls userId with
  | none => (st, [⟨socket.sid, .callError "No estás en esta llamada"⟩])
  | some ucid =>
    if !(ucid == callId) then
      (st, [⟨socket.sid, .callError "No estás en esta llamada"⟩])
    else
      match aget st.activeCalls callId with
      | none => (st, [])
      | some _ =>
        (st, emitToRoomExcept st callId socket.sid
          (.callChatMessage callId userId (senderName.getD "Usuario") content now))

/-- `handleDisconnection`: called with the state in which the closing socket
has already been removed from the socket registry and the rooms. -/
def handleDisconnection (st : ServerState) (socket : Socket) : ServerState × List Event :=
  let userId := socket.userId
  match aget st.userCalls userId with
  | none => (st, [])
  | some cid =>
    match aget st.activeCalls cid with
    | none => (st, [])
    | some call =>
      let remaining := (getUserSockets st userId).filter (fun s => !(s.sid == socket.sid))
      if remaining.length > 0 then (st, [])
      else
        let call1 : Call := { call with participants := adel call.participants userId }
        let st1 : ServerState :=
          { st with
            activeCalls := aset st.activeCalls cid call1
            userCalls := adel st.userCalls userId }
        let evs := emitToRoom st1 cid
          (.participantLeft cid userId "Usuario" call1.participants.length "disconnected")
        if userId == call.hostId || call1.participants.length < 1 then
          let r := endCall st1 cid "disconnected"
          (r.1, evs ++ r.2)
        else
          (st1, evs)

/-- The inbound events the claims quantify over, with the external inputs
(fresh socket ids, timestamps, database-resolved display names) inlined. -/
inductive Op where
  | connect (sid userId : Nat)
  | request (sid : Nat) (d : ReqData) (callerName : String) (now : Nat)
  | accept (sid : Nat) (d : AcceptData) (userName : String) (now : Nat)
  | reject (sid : Nat) (d : AcceptData)
  | leave (sid : Nat) (reason userName : String)
  | add (sid : Nat) (d : AddData) (inviterName : String)
  | chat (sid : Nat) (callId : Nat) (content : String) (senderName : Option String) (now : Nat)
  | disconnect (sid : Nat)

/-- Connected socket with the given id, if any. -/
def findSocket (st : ServerState) (sid : Nat) : Option Socket :=
  st.sockets.find? (fun s => s.sid == sid)

/-- Removal of a closing socket from the socket registry and the rooms,
as Socket.IO has already done when a `disconnect` callback runs. -/
def dropSocket (st : ServerState) (sid : Nat) : ServerState :=
  { st with
    sockets := st.sockets.filter (fun x => !(x.sid == sid))
    roomMembers := st.roomMembers.filter (fun m => !(m.1 == sid)) }

/-- One event dispatched against the current state.  Events are only produced
by connected sockets; a disconnect removes the socket and its room memberships
before the handler runs (Socket.IO has already detached the socket when the
`disconnect` callback fires). -/
def step (st : ServerState) (op : Op) : ServerState × List Event :=
  match op with
  | .connect sid uid =>
    if st.sockets.any (fun s => s.sid == sid) then (st, [])
    else ({ st with sockets := st.sockets ++ [⟨sid, uid⟩] }, [])
  | .request sid d nm now =>
    match findSocket st sid with
    | none => (st, [])
    | some s => handleCallRequest st s d nm now
  | .accept sid d nm now =>
    match findSocket st sid with
    | none => (st, [])
    | some s => handleCallAccept st s d nm now
  | .reject sid d =>
    match findSocket st sid with
    | none => (st, [])
    | some s => handleCallReject st s d
  | .leave sid reason nm =>
    match findSocket st sid with
    | none => (st, [])
    | some s => handleCallEnd st s reason nm
  | .add sid d nm =>
    match findSocket st sid with
    | none => (st, [])
    | some s => handleAddParticipant st s d nm
  | .chat sid cid content snm now =>
    match findSocket st sid with
    | none => (st, [])
    | some s => handleCallChatMessage st s cid content snm now
  | .disconnect sid =>
    match findSocket st sid with
    | none => (st, [])
    | some s => handleDisconnection (dropSocket st sid) s

/-- The empty state the server starts from. -/
def initState : ServerState :=
  { sockets := [], roomMembers := [], activeCalls := [], userCalls := [], nextCallId := 1 }

/-- State reached from `st` by a sequence of events. -/
def runFrom (st : ServerState) (ops : List Op) : ServerState :=
  ops.foldl (fun s op => (step s op).1) st

/-- State reached from the empty state by a sequence of events. -/
def run (ops : List Op) : ServerState :=
  runFrom initState ops

/-- A participant status counting as live occupancy. -/
def LiveStatus (p : Participant) : Prop :=
  p.status = "connecting" ∨ p.status = "connected"

/-- Every stored session's `callId` field agrees with its registry key. -/
def EntriesMatch (st : ServerState) : Prop :=
  ∀ pr ∈ st.activeCalls, (pr : Nat × Call).2.callId = pr.1

/-- Every registry key is below the fresh-identifier counter. -/
def KeysFresh (st : ServerState) : Prop :=
  ∀ pr ∈ st.activeCalls, (pr : Nat × Call).1 < st.nextCallId

/-- Registry keys are pairwise distinct. -/
def NodupKeys (st : ServerState) : Prop :=
  (st.activeCalls.map (fun pr => pr.1)).Nodup

/-- The single-occupancy invariant: whenever `userCalls` maps a user to a
call id, that session is registered and the user is one of its participants
with a live status. -/
def UserCallsOK (st : ServerState) : Prop :=
  ∀ u cid, aget st.userCalls u = some cid →
    ∃ c, aget st.activeCalls cid = some c ∧
      ∃ p, aget c.participants u = some p ∧ LiveStatus p

/-- The inductive invariant of the call state machine. -/
def Inv (st : ServerState) : Prop :=
  EntriesMatch st ∧ KeysFresh st ∧ NodupKeys st ∧ UserCallsOK st

/-- Decidable check of the disjointness invariant: no registered session has
a user both in `participants` and in `pendingInvites`. -/
def disjointB (st : ServerState) : Bool :=
  st.activeCalls.all (fun pr =>
    pr.2.participants.all (fun q => !(smem pr.2.pendingInvites q.1)))

/-- Decidable check that an operation is not a call request whose target list
contains the requesting socket's own user. -/
def selfFreeOp (st : ServerState) (op : Op) : Bool :=
  match op with
  | .request sid d _ _ =>
    match findSocket st sid with
    | none => true
    | some s => !(smem (reqTargets d) s.userId)
  | _ => true

/-- Decidable check that along a trace no call request ever targets the
requesting user itself. -/
def selfFreeFrom (st : ServerState) : List Op → Bool
  | [] => true
  | op :: rest => selfFreeOp st op && selfFreeFrom (step st op).1 rest

/-- Disjointness of `participants` and `pendingInvites` for every entry of a
session registry. -/
def DisjList (A : List (Nat × Call)) : Prop :=
  ∀ pr ∈ A, ∀ q ∈ (pr : Nat × Call).2.participants,
    ¬ (q : Nat × Participant).1 ∈ pr.2.pendingInvites

/-- Propositional form of the disjointness invariant. -/
def DisjGood (st : ServerState) : Prop :=
  DisjList st.activeCalls

/-- Fail-closed shape of a handler result: when any `call_error` was emitted,
the state is untouched and the only event is a single error to the acting
socket. -/
def FailClosed (st : ServerState) (sid : Nat) (r : ServerState × List Event) : Prop :=
  (∃ e ∈ r.2, isErrorEvent e = true) →
    r.1 = st ∧ ∃ m, r.2 = [⟨sid, Payload.callError m⟩]

/-- Trace for the disjointness counterexample: user 10 connects and requests a
call whose target list contains user 10 itself. -/
def selfCallOps : List Op :=
  [.connect 1 10, .request 1 ⟨some [10], 10, "of", some "audio"⟩ "Ana" 5]

/-- Trace for the accept-precondition counterexample: host 10 rings user 20;
user 30, never invited, accepts by call id. -/
def uninvitedOps : List Op :=
  [.connect 1 10, .connect 2 20, .connect 3 30,
   .request 1 ⟨some [20], 20, "of", some "audio"⟩ "Ana" 5,
   .accept 3 ⟨none, some 1⟩ "Cio" 6]

/-- Trace for the chat-routing counterexample: user 20 accepts the same call
from two sockets, so both its sockets sit in the call room. -/
def twoDeviceOps : List Op :=
  [.connect 1 10, .connect 2 20, .connect 3 20,
   .request 1 ⟨some [20], 20, "of", some "audio"⟩ "Ana" 5,
   .accept 2 ⟨none, some 1⟩ "Bea" 6,
   .accept 3 ⟨none, some 1⟩ "Bea" 7]

/-- Trace reaching a state where user 30, already occupying call 1, accepts
call 2 as well: the double-occupancy stress case for the index invariant. -/
def doubleAcceptOps : List Op :=
  [.connect 1 10, .connect 2 20, .connect 3 30,
   .request 1 ⟨some [30], 30, "of", some "audio"⟩ "Ana" 5,
   .request 2 ⟨some [30], 30, "of", some "audio"⟩ "Bea" 6,
   .accept 3 ⟨none, some 1⟩ "Cio" 7,
   .accept 3 ⟨none, some 2⟩ "Cio" 8]

/-- Trace for the reject-collapse witness: a two-party ringing call whose
lone invitee is about to reject. -/
def lonePendingOps : List Op :=
  [.connect 1 10, .connect 2 20,
   .request 1 ⟨some [20], 20, "of", some "audio"⟩ "Ana" 5]

/-- Trace for the multi-device witness: user 20 is in an active call with two
live sockets. -/
def twoSocketCallOps : List Op :=
  [.connect 1 10, .connect 2 20, .connect 3 20,
   .request 1 ⟨some [20], 20, "of", some "audio"⟩ "Ana" 5,
   .accept 2 ⟨none, some 1⟩ "Bea" 6]

/-- The session created by a successful `handleCallRequest`. -/
def reqNewCall (st : ServerState) (s : Socket) (d : ReqData) (nm : String) (now : Nat) : Call :=
  { callId := st.nextCallId
    hostId := s.userId
    hostName := nm
    participants := [(s.userId, ⟨s.userId, "connected", now⟩)]
    pendingInvites := sdedup ((reqAvail st (reqTargets d)).map (fun a => a.1))
    status := "ringing"
    startTime := now
    offer := d.offer
    callType := d.callType.getD "audio" }

/-- The session after `handleCallAccept` registers the accepting user. -/
def acceptCall1 (call : Call) (u : Nat) (now : Nat) : Call :=
  { call with
    pendingInvites := sdel call.pendingInvites u
    participants := aset call.participants u ⟨u, "connecting", now⟩
    status := "active" }

/-- The state after `handleCallAccept` registers the accepting user. -/
def acceptState (st : ServerState) (s : Socket) (call : Call) (now : Nat) : ServerState :=
  { st with
    activeCalls := aset st.activeCalls call.callId (acceptCall1 call s.userId now)
    userCalls := aset st.userCalls s.userId call.callId
    roomMembers := joinRoom st.roomMembers s.sid call.callId }

/-- The session after `handleCallReject` removes the pending invite. -/
def rejectCall1 (call : Call) (u : Nat) : Call :=
  { call with pendingInvites := sdel call.pendingInvites u }

/-- The state after `handleCallReject` stores the updated session. -/
def rejectState (st : ServerState) (call : Call) (u : Nat) : ServerState :=
  { st with activeCalls := aset st.activeCalls call.callId (rejectCall1 call u) }

/-- A session with one participant removed (leave / disconnect). -/
def leaveCall1 (call : Call) (u : Nat) : Call :=
  { call with participants := adel call.participants u }

/-- The state after `handleCallEnd` removes the leaver. -/
def leaveState (st : ServerState) (sk : Socket) (cid : Nat) (call : Call) : ServerState :=
  { st with
    activeCalls := aset st.activeCalls cid (leaveCall1 call sk.userId)
    userCalls := adel st.userCalls sk.userId
    roomMembers := leaveRoom st.roomMembers sk.sid cid }

/-- The state after `handleDisconnection` removes the dropped user. -/
def discState (st : ServerState) (u : Nat) (cid : Nat) (call : Call) : ServerState :=
  { st with
    activeCalls := aset st.activeCalls cid (leaveCall1 call u)
    userCalls := adel st.userCalls u }

/-- The session after `handleAddParticipant` registers the invite. -/
def addCall1 (call : Call) (t : Nat) : Call :=
  { call with pendingInvites := sadd call.pendingInvites t }

/-- The state after `handleAddParticipant` stores the updated session. -/
def addState (st : ServerState) (cid : Nat) (call : Call) (t : Nat) : ServerState :=
  { st with activeCalls := aset st.activeCalls cid (addCall1 call t) }

/-! ## Lemmas about the map and set primitives -/

theorem aget_aset {β : Type} (m : List (Nat × β)) (k k2 : Nat) (v : β) :
    aget (aset m k v) k2 = if k2 = k then some v else aget m k2 := by
  induction m with
  | nil =>
    simp only [aset, aget]
    by_cases h : k = k2
    · simp [h]
    · simp [h, Ne.symm h]
  | cons p rest ih =>
    by_cases hp : p.1 = k
    · by_cases h : k2 = k
      · subst h; simp [aset, aget, hp]
      · simp [aset, aget, hp, h, Ne.symm h, fun hh : k = k2 => h hh.symm]
    · by_cases hq : p.1 = k2
      · have h2 : ¬ k2 = k := fun hh => hp (hq.trans hh)
        simp [aset, aget, hp, hq, h2]
      · simp [aset, aget, hp, hq, ih]

theorem aget_adel {β : Type} (m : List (Nat × β)) (k k2 : Nat) :
    aget (adel m k) k2 = if k2 = k then none else aget m k2 := by
  induction m with
  | nil => simp [aget, adel]
  | cons p rest ih =>
    by_cases hp : p.1 = k
    · by_cases h : k2 = k
      · subst h
        simp [adel, aget, hp, ih]
      · have h2 : ¬ p.1 = k2 := by rw [hp]; exact fun hh => h hh.symm
        simp [adel, aget, hp, h2, ih, h, Ne.symm h]
    · by_cases hq : p.1 = k2
      · have h2 : ¬ k2 = k := fun hh => hp (hq.trans hh)
        simp [adel, aget, hp, hq, h2]
      · simp [adel, aget, hp, hq, ih]

theorem aget_foldl_adel {β : Type} (l : List Nat) (m : List (Nat × β)) (u : Nat) :
    aget (l.foldl adel m) u = if u ∈ l then none else aget m u := by
  induction l generalizing m with
  | nil => simp
  | cons x rest ih =>
    by_cases h : u = x
    · subst h
      simp [List.foldl_cons, ih, aget_adel]
    · by_cases h2 : u ∈ rest <;> simp [List.foldl_cons, ih, aget_adel, h, h2]

theorem aget_mem {β : Type} {m : List (Nat × β)} {k : Nat} {v : β}
    (h : aget m k = some v) : (k, v) ∈ m := by
  induction m with
  | nil => simp [aget] at h
  | cons p rest ih =>
    by_cases hp : p.1 = k
    · simp [aget, hp] at h
      subst h
      rw [← hp]
      exact List.mem_cons_self p rest
    · simp [aget, hp] at h
      exact List.mem_cons_of_mem _ (ih h)

theorem aget_eq_none {β : Type} {m : List (Nat × β)} {k : Nat}
    (h : aget m k = none) : ∀ pr ∈ m, (pr : Nat × β).1 ≠ k := by
  intro pr hpr
  induction m with
  | nil => simp at hpr
  | cons p rest ih =>
    by_cases hp : p.1 = k
    · simp [aget, hp] at h
    · simp [aget, hp] at h
      rcases List.mem_cons.mp hpr with h2 | h2
      · rw [h2]; exact hp
      · exact ih h h2

theorem mem_aset {β : Type} {m : List (Nat × β)} {k : Nat} {v : β} {pr : Nat × β}
    (h : pr ∈ aset m k v) : pr = (k, v) ∨ pr ∈ m := by
  induction m with
  | nil => simp [aset] at h; simp [h]
  | cons p rest ih =>
    by_cases hp : p.1 = k
    · simp only [aset, hp, if_pos rfl] at h
      rcases List.mem_cons.mp h with h2 | h2
      · exact Or.inl h2
      · exact Or.inr (List.mem_cons_of_mem _ h2)
    · simp only [aset, if_neg hp] at h
      rcases List.mem_cons.mp h with h2 | h2
      · exact Or.inr (by rw [h2]; exact List.mem_cons_self _ _)
      · rcases ih h2 with h3 | h3
        · exact Or.inl h3
        · exact Or.inr (List.mem_cons_of_mem _ h3)

theorem mem_adel {β : Type} {m : List (Nat × β)} {k : Nat} {pr : Nat × β}
    (h : pr ∈ adel m k) : pr ∈ m := by
  induction m with
  | nil => simp [adel] at h
  | cons p rest ih =>
    by_cases hp : p.1 = k
    · simp only [adel, if_pos hp] at h
      exact List.mem_cons_of_mem _ (ih h)
    · simp only [adel, if_neg hp] at h
      rcases List.mem_cons.mp h with h2 | h2
      · rw [h2]; exact List.mem_cons_self _ _
      · exact List.mem_cons_of_mem _ (ih h2)

theorem nodupkeys_aset {β : Type} {m : List (Nat × β)} {k : Nat} {v : β}
    (h : (m.map (fun pr => pr.1)).Nodup) :
    ((aset m k v).map (fun pr => pr.1)).Nodup := by
  induction m with
  | nil => simp [aset]
  | cons p rest ih =>
    simp only [List.map_cons, List.nodup_cons] at h
    by_cases hp : p.1 = k
    · simp only [aset, if_pos hp, List.map_cons, List.nodup_cons]
      exact ⟨hp ▸ h.1, h.2⟩
    · simp only [aset, if_neg hp, List.map_cons, List.nodup_cons]
      refine ⟨?_, ih h.2⟩
      intro hmem
      rcases List.mem_map.mp hmem with ⟨pr, hpr, hfst⟩
      rcases mem_aset hpr with h2 | h2
      · exact hp (by rw [h2] at hfst; exact hfst.symm ▸ rfl)
      · exact h.1 (List.mem_map.mpr ⟨pr, h2, hfst⟩)

theorem nodupkeys_adel {β : Type} {m : List (Nat × β)} {k : Nat}
    (h : (m.map (fun pr => pr.1)).Nodup) :
    ((adel m k).map (fun pr => pr.1)).Nodup := by
  induction m with
  | nil => simp [adel]
  | cons p rest ih =>
    simp only [List.map_cons, List.nodup_cons] at h
    by_cases hp : p.1 = k
    · simp only [adel, if_pos hp]
      exact ih h.2
    · simp only [adel, if_neg hp, List.map_cons, List.nodup_cons]
      refine ⟨?_, ih h.2⟩
      intro hmem
      rcases List.mem_map.mp hmem with ⟨pr, hpr, hfst⟩
      exact h.1 (List.mem_map.mpr ⟨pr, mem_adel hpr, hfst⟩)

theorem aget_of_mem_nodup {β : Type} {m : List (Nat × β)} {k : Nat} {v : β}
    (hnd : (m.map (fun pr => pr.1)).Nodup) (h : (k, v) ∈ m) :
    aget m k = some v := by
  induction m with
  | nil => simp at h
  | cons p rest ih =>
    simp only [List.map_cons, List.nodup_cons] at hnd
    rcases List.mem_cons.mp h with h2 | h2
    · rw [← h2]
      simp [aget]
    · by_cases hp : p.1 = k
      · exfalso
        apply hnd.1
        rw [hp]
        exact List.mem_map.mpr ⟨(k, v), h2, rfl⟩
      · simp [aget, hp]
        exact ih hnd.2 h2

theorem smem_iff {s : List Nat} {x : Nat} : smem s x = true ↔ x ∈ s := by
  induction s with
  | nil => simp [smem]
  | cons y rest ih =>
    by_cases h : y = x
    · simp [smem, h]
    · simp [smem, h, ih]
      exact fun hh => absurd hh.symm h

theorem mem_sdel {s : List Nat} {x y : Nat} : x ∈ sdel s y ↔ x ∈ s ∧ x ≠ y := by
  induction s with
  | nil => simp [sdel]
  | cons z rest ih =>
    by_cases h : z = y
    · subst h
      by_cases hx : x = z
      · subst hx
        simp [sdel, ih]
      · simp [sdel, ih, hx]
    · by_cases hx : x = z
      · subst hx
        simp [sdel, h]
      · simp [sdel, h, ih, hx]

theorem mem_sadd {s : List Nat} {x y : Nat} : x ∈ sadd s y ↔ x ∈ s ∨ x = y := by
  unfold sadd
  by_cases h : smem s y = true
  · simp [h]
    intro hx
    subst hx
    exact smem_iff.mp h
  · simp [h]

theorem mem_foldl_sadd {l : List Nat} {x : Nat} :
    ∀ acc : List Nat, (x ∈ l.foldl sadd acc ↔ x ∈ acc ∨ x ∈ l) := by
  induction l with
  | nil => simp
  | cons y rest ih =>
    intro acc
    simp only [List.foldl_cons, ih, mem_sadd, List.mem_cons]
    tauto

theorem mem_sdedup {l : List Nat} {x : Nat} : x ∈ sdedup l ↔ x ∈ l := by
  simp [sdedup, mem_foldl_sadd]

/-! ## Session resolution and the inductive invariant -/

theorem findByHost_mem {st : ServerState} {co : Option Nat} {u : Nat} {call : Call}
    (h : findByHost st co u = some call) : ∃ k, (k, call) ∈ st.activeCalls := by
  unfold findByHost at h
  split at h
  · simp at h
  · rename_i cid
    rcases hfind : st.activeCalls.find?
        (fun p => p.2.hostId == cid && smem p.2.pendingInvites u) with _ | pr
    · rw [hfind] at h
      simp at h
    · rw [hfind] at h
      simp at h
      refine ⟨pr.1, ?_⟩
      rw [← h]
      simpa using List.mem_of_find?_eq_some hfind

theorem resolveCall_mem {st : ServerState} {d : AcceptData} {u : Nat} {call : Call}
    (h : resolveCall st d u = some call) : ∃ k, (k, call) ∈ st.activeCalls := by
  unfold resolveCall at h
  split at h
  · rename_i c hdc
    split at h
    · rename_i call2 hga
      injection h with h2
      rw [← h2]
      exact ⟨c, aget_mem hga⟩
    · exact findByHost_mem h
  · exact findByHost_mem h

theorem resolveCall_aget {st : ServerState} {d : AcceptData} {u : Nat} {call : Call}
    (hem : EntriesMatch st) (hnd : NodupKeys st)
    (h : resolveCall st d u = some call) :
    aget st.activeCalls call.callId = some call := by
  obtain ⟨k, hk⟩ := resolveCall_mem h
  have hkk : call.callId = k := hem (k, call) hk
  rw [hkk]
  exact aget_of_mem_nodup hnd hk

theorem keysFresh_aget_none {st : ServerState} (hkf : KeysFresh st) :
    aget st.activeCalls st.nextCallId = none := by
  rcases hget : aget st.activeCalls st.nextCallId with _ | c
  · rfl
  · exact absurd (hkf _ (aget_mem hget)) (lt_irrefl _)

theorem inv_congr {st st2 : ServerState}
    (hA : st2.activeCalls = st.activeCalls) (hU : st2.userCalls = st.userCalls)
    (hn : st2.nextCallId = st.nextCallId) (h : Inv st) : Inv st2 := by
  obtain ⟨hem, hkf, hnd, hok⟩ := h
  exact ⟨by unfold EntriesMatch; rw [hA]; exact hem,
         by unfold KeysFresh; rw [hA, hn]; exact hkf,
         by unfold NodupKeys; rw [hA]; exact hnd,
         by unfold UserCallsOK; rw [hA, hU]; exact hok⟩

theorem inv_endCall {st : ServerState} (cid : Nat) (reason : String) (h : Inv st) :
    Inv (endCall st cid reason).1 := by
  obtain ⟨hem, hkf, hnd, hok⟩ := h
  unfold endCall
  rcases hget : aget st.activeCalls cid with _ | call
  · simpa [hget] using ⟨hem, hkf, hnd, hok⟩
  · simp only [hget]
    refine ⟨?_, ?_, ?_, ?_⟩
    · intro pr hpr
      exact hem pr (mem_adel hpr)
    · intro pr hpr
      exact hkf pr (mem_adel hpr)
    · exact nodupkeys_adel hnd
    · intro u cid2 hu
      rw [aget_foldl_adel] at hu
      by_cases hmem : u ∈ call.participants.map (fun p => p.1)
      · simp [hmem] at hu
      · simp [hmem] at hu
        obtain ⟨c, hc, p, hp, hlive⟩ := hok u cid2 hu
        have hne : cid2 ≠ cid := by
          intro heq
          subst heq
          rw [hget] at hc
          obtain rfl : call = c := by injection hc
          exact hmem (List.mem_map.mpr ⟨(u, p), aget_mem hp, rfl⟩)
        refine ⟨c, ?_, p, hp, hlive⟩
        rw [aget_adel, if_neg hne]
        exact hc

/-! ## Branch characterizations of the handlers -/

theorem handleCallRequest_inCall {st : ServerState} {s : Socket} {d : ReqData}
    {nm : String} {now : Nat} (hb : isUserInCall st s.userId = true) :
    handleCallRequest st s d nm now
      = (st, [⟨s.sid, .callError "Ya estás en una llamada"⟩]) := by
  simp only [handleCallRequest]
  rw [if_pos hb]

theorem handleCallRequest_noAvail {st : ServerState} {s : Socket} {d : ReqData}
    {nm : String} {now : Nat} (hb : isUserInCall st s.userId = false)
    (h2 : reqAvail st (reqTargets d) = []) :
    handleCallRequest st s d nm now
      = (st, [⟨s.sid, .callError "Ningún usuario está disponible"⟩]) := by
  simp only [handleCallRequest]
  rw [if_neg (by simp [hb]), if_pos (by simp [h2])]

theorem handleCallRequest_succ {st : ServerState} {s : Socket} {d : ReqData}
    {nm : String} {now : Nat} (hb : isUserInCall st s.userId = false)
    (h2 : reqAvail st (reqTargets d) ≠ []) :
    handleCallRequest st s d nm now =
      ({ st with
          activeCalls := aset st.activeCalls st.nextCallId (reqNewCall st s d nm now)
          userCalls := aset st.userCalls s.userId st.nextCallId
          roomMembers := joinRoom st.roomMembers s.sid st.nextCallId
          nextCallId := st.nextCallId + 1 },
        Event.mk s.sid (.callCreated st.nextCallId "ringing"
            (reqAvail st (reqTargets d)).length (d.callType.getD "audio"))
          :: ((reqAvail st (reqTargets d)).map (fun a =>
              a.2.map (fun ts => Event.mk ts.sid
                (.callIncoming st.nextCallId s.userId nm
                  (decide ((reqTargets d).length > 1))
                  ((reqTargets d).length + 1) d.offer (d.callType.getD "audio"))))).flatten
          ++ (if ((reqTargets d).filter (unavailPred st)).length > 0 then
                [Event.mk s.sid (.callUsersUnavailable ((reqTargets d).filter (unavailPred st)))]
              else [])) := by
  have hlen : ¬ ((reqAvail st (reqTargets d)).length == 0) = true := by
    simp [List.length_eq_zero, h2]
  simp only [handleCallRequest]
  rw [if_neg (by simp [hb]), if_neg hlen]
  rfl

theorem endCall_none {st : ServerState} {cid : Nat} {reason : String}
    (h : aget st.activeCalls cid = none) :
    endCall st cid reason = (st, []) := by
  unfold endCall
  rw [h]

theorem endCall_some {st : ServerState} {cid : Nat} {reason : String} {call : Call}
    (h : aget st.activeCalls cid = some call) :
    endCall st cid reason =
      ({ st with
          userCalls := (call.participants.map (fun p => p.1)).foldl adel st.userCalls
          roomMembers := st.roomMembers.filter (fun m =>
            !(m.2 == cid && st.sockets.any (fun sk => sk.sid == m.1
                && smem (call.participants.map (fun p => p.1)) sk.userId)))
          activeCalls := adel st.activeCalls cid },
        emitToRoom st cid (.callEnded cid reason)) := by
  unfold endCall
  rw [h]

theorem handleCallAccept_none {st : ServerState} {s : Socket} {d : AcceptData}
    {nm : String} {now : Nat} (h : resolveCall st d s.userId = none) :
    handleCallAccept st s d nm now = (st, [⟨s.sid, .callError "Llamada no encontrada"⟩]) := by
  simp only [handleCallAccept]
  rw [h]

theorem handleCallAccept_some {st : ServerState} {s : Socket} {d : AcceptData}
    {nm : String} {now : Nat} {call : Call} (h : resolveCall st d s.userId = some call) :
    handleCallAccept st s d nm now =
      (acceptState st s call now,
        emitToRoom (acceptState st s call now) call.callId
          (.participantJoined call.callId s.userId nm
            ((acceptCall1 call s.userId now).participants.length))
        ++ [⟨s.sid, .callOffer call.callId call.hostId call.offer
              ((acceptCall1 call s.userId now).participants.map (fun p => p.1))⟩]) := by
  simp only [handleCallAccept, acceptState, acceptCall1]
  rw [h]

theorem handleCallReject_none {st : ServerState} {s : Socket} {d : AcceptData}
    (h : resolveCall st d s.userId = none) :
    handleCallReject st s d = (st, []) := by
  simp only [handleCallReject]
  rw [h]

theorem handleCallReject_collapse {st : ServerState} {s : Socket} {d : AcceptData} {call : Call}
    (h : resolveCall st d s.userId = some call)
    (hcond : (call.participants.length == 1
        && ((sdel call.pendingInvites s.userId).length == 0)) = true) :
    handleCallReject st s d =
      ((endCall (rejectState st call s.userId) call.callId "rejected").1,
        emitToRoom (rejectState st call s.userId) call.callId
          (.participantRejected call.callId s.userId)
        ++ (endCall (rejectState st call s.userId) call.callId "rejected").2) := by
  simp only [handleCallReject, rejectState, rejectCall1, h]
  rw [if_pos hcond]

theorem handleCallReject_stay {st : ServerState} {s : Socket} {d : AcceptData} {call : Call}
    (h : resolveCall st d s.userId = some call)
    (hcond : (call.participants.length == 1
        && ((sdel call.pendingInvites s.userId).length == 0)) = false) :
    handleCallReject st s d =
      (rejectState st call s.userId,
        emitToRoom (rejectState st call s.userId) call.callId
          (.participantRejected call.callId s.userId)) := by
  simp only [handleCallReject, rejectState, rejectCall1, h]
  rw [if_neg (by simp [hcond])]

theorem handleCallEnd_noidx {st : ServerState} {s : Socket} {reason nm : String}
    (h : aget st.userCalls s.userId = none) :
    handleCallEnd st s reason nm = (st, []) := by
  simp only [handleCallEnd]
  rw [h]

theorem handleCallEnd_nocall {st : ServerState} {s : Socket} {reason nm : String} {cid : Nat}
    (h1 : aget st.userCalls s.userId = some cid) (h2 : aget st.activeCalls cid = none) :
    handleCallEnd st s reason nm = (st, []) := by
  simp only [handleCallEnd, h1]
  rw [h2]

theorem handleCallEnd_term {st : ServerState} {s : Socket} {reason nm : String} {cid : Nat}
    {call : Call}
    (h1 : aget st.userCalls s.userId = some cid) (h2 : aget st.activeCalls cid = some call)
    (hcond : (s.userId == call.hostId
        || decide ((leaveCall1 call s.userId).participants.length < 1)) = true) :
    handleCallEnd st s reason nm =
      ((endCall (leaveState st s cid call) cid
          (if s.userId == call.hostId then "host_left" else "ended")).1,
        emitToRoom (leaveState st s cid call) cid
          (.participantLeft cid s.userId nm
            ((leaveCall1 call s.userId).participants.length) reason)
        ++ (endCall (leaveState st s cid call) cid
            (if s.userId == call.hostId then "host_left" else "ended")).2) := by
  have hcond2 := hcond
  simp only [leaveCall1] at hcond2
  simp only [handleCallEnd, leaveState, leaveCall1, h1, h2]
  rw [if_pos hcond2]

theorem handleCallEnd_stay {st : ServerState} {s : Socket} {reason nm : String} {cid : Nat}
    {call : Call}
    (h1 : aget st.userCalls s.userId = some cid) (h2 : aget st.activeCalls cid = some call)
    (hcond : (s.userId == call.hostId
        || decide ((leaveCall1 call s.userId).participants.length < 1)) = false) :
    handleCallEnd st s reason nm =
      (leaveState st s cid call,
        emitToRoom (leaveState st s cid call) cid
          (.participantLeft cid s.userId nm
            ((leaveCall1 call s.userId).participants.length) reason)) := by
  have hcond2 := hcond
  simp only [leaveCall1] at hcond2
  simp only [handleCallEnd, leaveState, leaveCall1, h1, h2]
  rw [if_neg (by simpa using hcond2)]

theorem handleAddParticipant_nocall {st : ServerState} {s : Socket} {d : AddData} {nm : String}
    (h : aget st.activeCalls d.callId = none) :
    handleAddParticipant st s d nm = (st, [⟨s.sid, .callError "Llamada no encontrada"⟩]) := by
  simp only [handleAddParticipant]
  rw [h]

theorem handleAddParticipant_notMember {st : ServerState} {s : Socket} {d : AddData}
    {nm : String} {call : Call}
    (h : aget st.activeCalls d.callId = some call)
    (h2 : aget call.participants s.userId = none) :
    handleAddParticipant st s d nm
      = (st, [⟨s.sid, .callError "No eres participante de esta llamada"⟩]) := by
  simp only [handleAddParticipant, h]
  rw [if_pos (by simp [h2])]

theorem handleAddParticipant_already {st : ServerState} {s : Socket} {d : AddData}
    {nm : String} {call : Call} {p : Participant}
    (h : aget st.activeCalls d.callId = some call)
    (h2 : aget call.participants s.userId = some p)
    (h3 : ((aget call.participants d.targetUserId).isSome
        || smem call.pendingInvites d.targetUserId) = true) :
    handleAddParticipant st s d nm
      = (st, [⟨s.sid, .callError "El usuario ya está en la llamada o fue invitado"⟩]) := by
  simp only [handleAddParticipant, h]
  rw [if_neg (by simp [h2]), if_pos h3]

theorem handleAddParticipant_inOther {st : ServerState} {s : Socket} {d : AddData}
    {nm : String} {call : Call} {p : Participant}
    (h : aget st.activeCalls d.callId = some call)
    (h2 : aget call.participants s.userId = some p)
    (h3 : ((aget call.participants d.targetUserId).isSome
        || smem call.pendingInvites d.targetUserId) = false)
    (h4 : isUserInCall st d.targetUserId = true) :
    handleAddParticipant st s d nm
      = (st, [⟨s.sid, .callError "El usuario está en otra llamada"⟩]) := by
  simp only [handleAddParticipant, h]
  rw [if_neg (by simp [h2]), if_neg (by simp [h3]), if_pos h4]

theorem handleAddParticipant_unreachable {st : ServerState} {s : Socket} {d : AddData}
    {nm : String} {call : Call} {p : Participant}
    (h : aget st.activeCalls d.callId = some call)
    (h2 : aget call.participants s.userId = some p)
    (h3 : ((aget call.participants d.targetUserId).isSome
        || smem call.pendingInvites d.targetUserId) = false)
    (h4 : isUserInCall st d.targetUserId = false)
    (h5 : getUserSockets st d.targetUserId = []) :
    handleAddParticipant st s d nm
      = (st, [⟨s.sid, .callError "El usuario no está disponible"⟩]) := by
  simp only [handleAddParticipant, h]
  rw [if_neg (by simp [h2]), if_neg (by simp [h3]), if_neg (by simp [h4]),
    if_pos (by simp [h5])]

theorem handleAddParticipant_succ {st : ServerState} {s : Socket} {d : AddData}
    {nm : String} {call : Call} {p : Participant}
    (h : aget st.activeCalls d.callId = some call)
    (h2 : aget call.participants s.userId = some p)
    (h3 : ((aget call.participants d.targetUserId).isSome
        || smem call.pendingInvites d.targetUserId) = false)
    (h4 : isUserInCall st d.targetUserId = false)
    (h5 : getUserSockets st d.targetUserId ≠ []) :
    handleAddParticipant st s d nm =
      (addState st d.callId call d.targetUserId,
        (getUserSockets st d.targetUserId).map (fun ts => Event.mk ts.sid
          (.callIncomingInvite d.callId call.hostId call.hostName nm
            (call.participants.length + 1) (call.participants.map (fun q => q.1))
            call.offer call.callType))
        ++ emitToRoom (addState st d.callId call d.targetUserId) d.callId
            (.participantInvited d.callId d.targetUserId s.userId nm)) := by
  simp only [handleAddParticipant, addState, addCall1, h]
  rw [if_neg (by simp [h2]), if_neg (by simp [h3]), if_neg (by simp [h4]),
    if_neg (by simp [h5])]

theorem handleCallChatMessage_noidx {st : ServerState} {s : Socket} {callId : Nat}
    {content : String} {snm : Option String} {now : Nat}
    (h : aget st.userCalls s.userId = none) :
    handleCallChatMessage st s callId content snm now
      = (st, [⟨s.sid, .callError "No estás en esta llamada"⟩]) := by
  simp only [handleCallChatMessage]
  rw [h]

theorem handleCallChatMessage_other {st : ServerState} {s : Socket} {callId ucid : Nat}
    {content : String} {snm : Option String} {now : Nat}
    (h : aget st.userCalls s.userId = some ucid) (hne : ucid ≠ callId) :
    handleCallChatMessage st s callId content snm now
      = (st, [⟨s.sid, .callError "No estás en esta llamada"⟩]) := by
  simp only [handleCallChatMessage, h]
  rw [if_pos (by simp [hne])]

theorem handleCallChatMessage_stale {st : ServerState} {s : Socket} {callId : Nat}
    {content : String} {snm : Option String} {now : Nat}
    (h : aget st.userCalls s.userId = some callId)
    (h2 : aget st.activeCalls callId = none) :
    handleCallChatMessage st s callId content snm now = (st, []) := by
  simp only [handleCallChatMessage, h]
  rw [if_neg (by simp), h2]

theorem handleCallChatMessage_send {st : ServerState} {s : Socket} {callId : Nat}
    {content : String} {snm : Option String} {now : Nat} {c : Call}
    (h : aget st.userCalls s.userId = some callId)
    (h2 : aget st.activeCalls callId = some c) :
    handleCallChatMessage st s callId content snm now
      = (st, emitToRoomExcept st callId s.sid
          (.callChatMessage callId s.userId (snm.getD "Usuario") content now)) := by
  simp only [handleCallChatMessage, h]
  rw [if_neg (by simp), h2]

theorem handleDisconnection_noidx {st : ServerState} {s : Socket}
    (h : aget st.userCalls s.userId = none) :
    handleDisconnection st s = (st, []) := by
  simp only [handleDisconnection]
  rw [h]

theorem handleDisconnection_nocall {st : ServerState} {s : Socket} {cid : Nat}
    (h1 : aget st.userCalls s.userId = some cid) (h2 : aget st.activeCalls cid = none) :
    handleDisconnection st s = (st, []) := by
  simp only [handleDisconnection, h1]
  rw [h2]

theorem handleDisconnection_other {st : ServerState} {s : Socket} {cid : Nat} {call : Call}
    (h1 : aget st.userCalls s.userId = some cid) (h2 : aget st.activeCalls cid = some call)
    (hrem : ((getUserSockets st s.userId).filter (fun x => !(x.sid == s.sid))).length > 0) :
    handleDisconnection st s = (st, []) := by
  simp only [handleDisconnection, h1, h2]
  rw [if_pos hrem]

theorem handleDisconnection_term {st : ServerState} {s : Socket} {cid : Nat} {call : Call}
    (h1 : aget st.userCalls s.userId = some cid) (h2 : aget st.activeCalls cid = some call)
    (hrem : ¬ ((getUserSockets st s.userId).filter (fun x => !(x.sid == s.sid))).length > 0)
    (hcond : (s.userId == call.hostId
        || decide ((leaveCall1 call s.userId).participants.length < 1)) = true) :
    handleDisconnection st s =
      ((endCall (discState st s.userId cid call) cid "disconnected").1,
        emitToRoom (discState st s.userId cid call) cid
          (.participantLeft cid s.userId "Usuario"
            ((leaveCall1 call s.userId).participants.length) "disconnected")
        ++ (endCall (discState st s.userId cid call) cid "disconnected").2) := by
  have hcond2 := hcond
  simp only [leaveCall1] at hcond2
  simp only [handleDisconnection, discState, leaveCall1, h1, h2]
  rw [if_neg hrem, if_pos hcond2]

theorem handleDisconnection_stay {st : ServerState} {s : Socket} {cid : Nat} {call : Call}
    (h1 : aget st.userCalls s.userId = some cid) (h2 : aget st.activeCalls cid = some call)
    (hrem : ¬ ((getUserSockets st s.userId).filter (fun x => !(x.sid == s.sid))).length > 0)
    (hcond : (s.userId == call.hostId
        || decide ((leaveCall1 call s.userId).participants.length < 1)) = false) :
    handleDisconnection st s =
      (discState st s.userId cid call,
        emitToRoom (discState st s.userId cid call) cid
          (.participantLeft cid s.userId "Usuario"
            ((leaveCall1 call s.userId).participants.length) "disconnected")) := by
  have hcond2 := hcond
  simp only [leaveCall1] at hcond2
  simp only [handleDisconnection, discState, leaveCall1, h1, h2]
  rw [if_neg hrem, if_neg (by simpa using hcond2)]

/-! ## Preservation of the inductive invariant -/

theorem inv_init : Inv initState :=
  ⟨fun pr hpr => by simp [initState] at hpr,
   fun pr hpr => by simp [initState] at hpr,
   by simp [NodupKeys, initState],
   fun u cid hu => by simp [initState, aget] at hu⟩

theorem inv_handleCallRequest {st : ServerState} (s : Socket) (d : ReqData)
    (nm : String) (now : Nat) (h : Inv st) :
    Inv (handleCallRequest st s d nm now).1 := by
  obtain ⟨hem, hkf, hnd, hok⟩ := h
  rcases hb : isUserInCall st s.userId with _ | _
  · by_cases h2 : reqAvail st (reqTargets d) = []
    · rw [handleCallRequest_noAvail hb h2]
      exact ⟨hem, hkf, hnd, hok⟩
    · rw [handleCallRequest_succ hb h2]
      have hfresh : aget st.activeCalls st.nextCallId = none := keysFresh_aget_none hkf
      refine ⟨?_, ?_, ?_, ?_⟩
      · intro pr hpr
        dsimp only at hpr
        rcases mem_aset hpr with h4 | h4
        · rw [h4]
          rfl
        · exact hem pr h4
      · intro pr hpr
        dsimp only at hpr
        rcases mem_aset hpr with h4 | h4
        · rw [h4]
          exact Nat.lt_succ_self _
        · exact Nat.lt_succ_of_lt (hkf pr h4)
      · exact nodupkeys_aset hnd
      · intro u cid hu
        dsimp only at hu ⊢
        rw [aget_aset] at hu
        by_cases h5 : u = s.userId
        · rw [if_pos h5] at hu
          injection hu with hu2
          subst h5
          refine ⟨reqNewCall st s d nm now, ?_, ⟨s.userId, "connected", now⟩, ?_, Or.inr rfl⟩
          · rw [← hu2, aget_aset, if_pos rfl]
          · simp [reqNewCall, aget]
        · rw [if_neg h5] at hu
          obtain ⟨c, hc, p, hp, hlive⟩ := hok u cid hu
          have hne : cid ≠ st.nextCallId := by
            intro heq
            rw [heq, hfresh] at hc
            exact Option.noConfusion hc
          refine ⟨c, ?_, p, hp, hlive⟩
          rw [aget_aset, if_neg hne]
          exact hc
  · rw [handleCallRequest_inCall hb]
    exact ⟨hem, hkf, hnd, hok⟩

theorem inv_handleCallAccept {st : ServerState} (s : Socket) (d : AcceptData)
    (nm : String) (now : Nat) (h : Inv st) :
    Inv (handleCallAccept st s d nm now).1 := by
  obtain ⟨hem, hkf, hnd, hok⟩ := h
  rcases hres : resolveCall st d s.userId with _ | call
  · rw [handleCallAccept_none hres]
    exact ⟨hem, hkf, hnd, hok⟩
  · rw [handleCallAccept_some hres]
    have hag : aget st.activeCalls call.callId = some call :=
      resolveCall_aget hem hnd hres
    dsimp only [acceptState]
    refine ⟨?_, ?_, ?_, ?_⟩
    · intro pr hpr
      dsimp only at hpr
      rcases mem_aset hpr with h4 | h4
      · rw [h4]
        rfl
      · exact hem pr h4
    · intro pr hpr
      dsimp only at hpr
      rcases mem_aset hpr with h4 | h4
      · rw [h4]
        exact hkf (call.callId, call) (aget_mem hag)
      · exact hkf pr h4
    · exact nodupkeys_aset hnd
    · intro u cid hu
      dsimp only at hu ⊢
      rw [aget_aset] at hu
      by_cases h5 : u = s.userId
      · rw [if_pos h5] at hu
        injection hu with hu2
        subst h5
        refine ⟨acceptCall1 call s.userId now, ?_, ⟨s.userId, "connecting", now⟩, ?_, Or.inl rfl⟩
        · rw [← hu2, aget_aset, if_pos rfl]
        · dsimp only [acceptCall1]
          rw [aget_aset, if_pos rfl]
      · rw [if_neg h5] at hu
        obtain ⟨c, hc, p, hp, hlive⟩ := hok u cid hu
        by_cases h6 : cid = call.callId
        · subst h6
          obtain rfl : c = call := by
            rw [hag] at hc
            injection hc with h7
            exact h7.symm
          refine ⟨acceptCall1 c s.userId now, ?_, p, ?_, hlive⟩
          · rw [aget_aset, if_pos rfl]
          · dsimp only [acceptCall1]
            rw [aget_aset, if_neg h5]
            exact hp
        · refine ⟨c, ?_, p, hp, hlive⟩
          rw [aget_aset, if_neg h6]
          exact hc

theorem inv_handleCallReject {st : ServerState} (s : Socket) (d : AcceptData) (h : Inv st) :
    Inv (handleCallReject st s d).1 := by
  obtain ⟨hem, hkf, hnd, hok⟩ := h
  rcases hres : resolveCall st d s.userId with _ | call
  · rw [handleCallReject_none hres]
    exact ⟨hem, hkf, hnd, hok⟩
  · have hag : aget st.activeCalls call.callId = some call :=
      resolveCall_aget hem hnd hres
    have hinv1 : Inv (rejectState st call s.userId) := by
      refine ⟨?_, ?_, ?_, ?_⟩
      · intro pr hpr
        dsimp only [rejectState] at hpr
        rcases mem_aset hpr with h4 | h4
        · rw [h4]
          rfl
        · exact hem pr h4
      · intro pr hpr
        dsimp only [rejectState] at hpr
        rcases mem_aset hpr with h4 | h4
        · rw [h4]
          exact hkf (call.callId, call) (aget_mem hag)
        · exact hkf pr h4
      · exact nodupkeys_aset hnd
      · intro u cid hu
        dsimp only [rejectState] at hu ⊢
        obtain ⟨c, hc, p, hp, hlive⟩ := hok u cid hu
        by_cases h6 : cid = call.callId
        · subst h6
          obtain rfl : c = call := by
            rw [hag] at hc
            injection hc with h7
            exact h7.symm
          refine ⟨rejectCall1 c s.userId, ?_, p, hp, hlive⟩
          rw [aget_aset, if_pos rfl]
        · refine ⟨c, ?_, p, hp, hlive⟩
          rw [aget_aset, if_neg h6]
          exact hc
    rcases hcond : (call.participants.length == 1
        && ((sdel call.pendingInvites s.userId).length == 0)) with _ | _
    · rw [handleCallReject_stay hres hcond]
      exact hinv1
    · rw [handleCallReject_collapse hres hcond]
      exact inv_endCall _ _ hinv1

theorem inv_handleCallEnd {st : ServerState} (s : Socket) (reason nm : String) (h : Inv st) :
    Inv (handleCallEnd st s reason nm).1 := by
  obtain ⟨hem, hkf, hnd, hok⟩ := h
  rcases h1 : aget st.userCalls s.userId with _ | cid
  · rw [handleCallEnd_noidx h1]
    exact ⟨hem, hkf, hnd, hok⟩
  · rcases h2 : aget st.activeCalls cid with _ | call
    · rw [handleCallEnd_nocall h1 h2]
      exact ⟨hem, hkf, hnd, hok⟩
    · have hcid : call.callId = cid := hem _ (aget_mem h2)
      have hinv1 : Inv (leaveState st s cid call) := by
        refine ⟨?_, ?_, ?_, ?_⟩
        · intro pr hpr
          dsimp only [leaveState] at hpr
          rcases mem_aset hpr with h4 | h4
          · rw [h4]
            exact hcid
          · exact hem pr h4
        · intro pr hpr
          dsimp only [leaveState] at hpr
          rcases mem_aset hpr with h4 | h4
          · rw [h4]
            exact hkf (cid, call) (aget_mem h2)
          · exact hkf pr h4
        · exact nodupkeys_aset hnd
        · intro u cid2 hu
          dsimp only [leaveState] at hu ⊢
          rw [aget_adel] at hu
          by_cases h5 : u = s.userId
          · rw [if_pos h5] at hu
            exact absurd hu (by simp)
          · rw [if_neg h5] at hu
            obtain ⟨c, hc, p, hp, hlive⟩ := hok u cid2 hu
            by_cases h6 : cid2 = cid
            · subst h6
              obtain rfl : c = call := by
                rw [h2] at hc
                injection hc with h7
                exact h7.symm
              refine ⟨leaveCall1 c s.userId, ?_, p, ?_, hlive⟩
              · rw [aget_aset, if_pos rfl]
              · dsimp only [leaveCall1]
                rw [aget_adel, if_neg h5]
                exact hp
            · refine ⟨c, ?_, p, hp, hlive⟩
              rw [aget_aset, if_neg h6]
              exact hc
      rcases hcond : (s.userId == call.hostId
          || decide ((leaveCall1 call s.userId).participants.length < 1)) with _ | _
      · rw [handleCallEnd_stay h1 h2 hcond]
        exact hinv1
      · rw [handleCallEnd_term h1 h2 hcond]
        exact inv_endCall _ _ hinv1

theorem inv_handleAddParticipant {st : ServerState} (s : Socket) (d : AddData)
    (nm : String) (h : Inv st) :
    Inv (handleAddParticipant st s d nm).1 := by
  obtain ⟨hem, hkf, hnd, hok⟩ := h
  rcases h1 : aget st.activeCalls d.callId with _ | call
  · rw [handleAddParticipant_nocall h1]
    exact ⟨hem, hkf, hnd, hok⟩
  · rcases h2 : aget call.participants s.userId with _ | p
    · rw [handleAddParticipant_notMember h1 h2]
      exact ⟨hem, hkf, hnd, hok⟩
    · rcases h3 : ((aget call.participants d.targetUserId).isSome
          || smem call.pendingInvites d.targetUserId) with _ | _
      · rcases h4 : isUserInCall st d.targetUserId with _ | _
        · by_cases h5 : getUserSockets st d.targetUserId = []
          · rw [handleAddParticipant_unreachable h1 h2 h3 h4 h5]
            exact ⟨hem, hkf, hnd, hok⟩
          · rw [handleAddParticipant_succ h1 h2 h3 h4 h5]
            have hcid : call.callId = d.callId := hem _ (aget_mem h1)
            dsimp only [addState]
            refine ⟨?_, ?_, ?_, ?_⟩
            · intro pr hpr
              dsimp only at hpr
              rcases mem_aset hpr with h6 | h6
              · rw [h6]
                exact hcid
              · exact hem pr h6
            · intro pr hpr
              dsimp only at hpr
              rcases mem_aset hpr with h6 | h6
              · rw [h6]
                exact hkf (d.callId, call) (aget_mem h1)
              · exact hkf pr h6
            · exact nodupkeys_aset hnd
            · intro u cid hu
              dsimp only at hu ⊢
              obtain ⟨c, hc, p2, hp2, hlive⟩ := hok u cid hu
              by_cases h6 : cid = d.callId
              · subst h6
                obtain rfl : c = call := by
                  rw [h1] at hc
                  injection hc with h7
                  exact h7.symm
                refine ⟨addCall1 c d.targetUserId, ?_, p2, hp2, hlive⟩
                rw [aget_aset, if_pos rfl]
              · refine ⟨c, ?_, p2, hp2, hlive⟩
                rw [aget_aset, if_neg h6]
                exact hc
        · rw [handleAddParticipant_inOther h1 h2 h3 h4]
          exact ⟨hem, hkf, hnd, hok⟩
      · rw [handleAddParticipant_already h1 h2 h3]
        exact ⟨hem, hkf, hnd, hok⟩

theorem chat_state_eq {st : ServerState} {s : Socket} {callId : Nat}
    {content : String} {snm : Option String} {now : Nat} :
    (handleCallChatMessage st s callId content snm now).1 = st := by
  rcases h : aget st.userCalls s.userId with _ | ucid
  · rw [handleCallChatMessage_noidx h]
  · by_cases h6 : ucid = callId
    · subst h6
      rcases h2 : aget st.activeCalls ucid with _ | c
      · rw [handleCallChatMessage_stale h h2]
      · rw [handleCallChatMessage_send h h2]
    · rw [handleCallChatMessage_other h h6]

theorem inv_handleDisconnection {st : ServerState} (s : Socket) (h : Inv st) :
    Inv (handleDisconnection st s).1 := by
  obtain ⟨hem, hkf, hnd, hok⟩ := h
  rcases h1 : aget st.userCalls s.userId with _ | cid
  · rw [handleDisconnection_noidx h1]
    exact ⟨hem, hkf, hnd, hok⟩
  · rcases h2 : aget st.activeCalls cid with _ | call
    · rw [handleDisconnection_nocall h1 h2]
      exact ⟨hem, hkf, hnd, hok⟩
    · have hcid : call.callId = cid := hem _ (aget_mem h2)
      by_cases hrem : ((getUserSockets st s.userId).filter
          (fun x => !(x.sid == s.sid))).length > 0
      · rw [handleDisconnection_other h1 h2 hrem]
        exact ⟨hem, hkf, hnd, hok⟩
      · have hinv1 : Inv (discState st s.userId cid call) := by
          refine ⟨?_, ?_, ?_, ?_⟩
          · intro pr hpr
            dsimp only [discState] at hpr
            rcases mem_aset hpr with h4 | h4
            · rw [h4]
              exact hcid
            · exact hem pr h4
          · intro pr hpr
            dsimp only [discState] at hpr
            rcases mem_aset hpr with h4 | h4
            · rw [h4]
              exact hkf (cid, call) (aget_mem h2)
            · exact hkf pr h4
          · exact nodupkeys_aset hnd
          · intro u cid2 hu
            dsimp only [discState] at hu ⊢
            rw [aget_adel] at hu
            by_cases h5 : u = s.userId
            · rw [if_pos h5] at hu
              exact absurd hu (by simp)
            · rw [if_neg h5] at hu
              obtain ⟨c, hc, p, hp, hlive⟩ := hok u cid2 hu
              by_cases h6 : cid2 = cid
              · subst h6
                obtain rfl : c = call := by
                  rw [h2] at hc
                  injection hc with h7
                  exact h7.symm
                refine ⟨leaveCall1 c s.userId, ?_, p, ?_, hlive⟩
                · rw [aget_aset, if_pos rfl]
                · dsimp only [leaveCall1]
                  rw [aget_adel, if_neg h5]
                  exact hp
              · refine ⟨c, ?_, p, hp, hlive⟩
                rw [aget_aset, if_neg h6]
                exact hc
        rcases hcond : (s.userId == call.hostId
            || decide ((leaveCall1 call s.userId).participants.length < 1)) with _ | _
        · rw [handleDisconnection_stay h1 h2 hrem hcond]
          exact hinv1
        · rw [handleDisconnection_term h1 h2 hrem hcond]
          exact inv_endCall _ _ hinv1

theorem inv_step {st : ServerState} (op : Op) (h : Inv st) : Inv (step st op).1 := by
  cases op with
  | connect sid uid =>
    simp only [step]
    by_cases hc : st.sockets.any (fun s => s.sid == sid) = true
    · rw [if_pos hc]
      exact h
    · rw [if_neg hc]
      exact inv_congr rfl rfl rfl h
  | request sid d nm now =>
    simp only [step]
    rcases hs : findSocket st sid with _ | sk
    · exact h
    · exact inv_handleCallRequest sk d nm now h
  | accept sid d nm now =>
    simp only [step]
    rcases hs : findSocket st sid with _ | sk
    · exact h
    · exact inv_handleCallAccept sk d nm now h
  | reject sid d =>
    simp only [step]
    rcases hs : findSocket st sid with _ | sk
    · exact h
    · exact inv_handleCallReject sk d h
  | leave sid reason nm =>
    simp only [step]
    rcases hs : findSocket st sid with _ | sk
    · exact h
    · exact inv_handleCallEnd sk reason nm h
  | add sid d nm =>
    simp only [step]
    rcases hs : findSocket st sid with _ | sk
    · exact h
    · exact inv_handleAddParticipant sk d nm h
  | chat sid cid content snm now =>
    simp only [step]
    rcases hs : findSocket st sid with _ | sk
    · exact h
    · rw [chat_state_eq]
      exact h
  | disconnect sid =>
    simp only [step]
    rcases hs : findSocket st sid with _ | sk
    · exact h
    · exact inv_handleDisconnection sk (inv_congr rfl rfl rfl h)

theorem inv_runFrom {st : ServerState} (ops : List Op) (h : Inv st) :
    Inv (runFrom st ops) := by
  induction ops generalizing st with
  | nil => exact h
  | cons op rest ih => exact ih (inv_step op h)

theorem inv_run (ops : List Op) : Inv (run ops) :=
  inv_runFrom ops inv_init

/-! ## Claim C1: single occupancy -/

/-- C1: after any sequence of operations from the empty state, the
user-to-call index maps a user to at most one call id, and whenever it maps a
user to a call id, that session is still registered and the user is a key of
its participants map with status `connecting` or `connected` — including after
an accept by a user who already occupies another session. -/
theorem single_occupancy_invariant (ops : List Op) (u cid : Nat)
    (h : aget (run ops).userCalls u = some cid) :
    (∀ cid2, aget (run ops).userCalls u = some cid2 → cid2 = cid) ∧
    ∃ c, aget (run ops).activeCalls cid = some c ∧
      ∃ p, aget c.participants u = some p ∧
        (p.status = "connecting" ∨ p.status = "connected") := by
  obtain ⟨hem, hkf, hnd, hok⟩ := inv_run ops
  refine ⟨?_, ?_⟩
  · intro cid2 h2
    rw [h] at h2
    injection h2 with h3
    exact h3.symm
  · exact hok u cid h

/-- Witness for C1 at the double-accept trace: user 30, already in call 1,
accepts call 2; the index then names call 2, where user 30 is a connecting
participant of a registered session. -/
theorem single_occupancy_invariant_witness :
    aget (run doubleAcceptOps).userCalls 30 = some 2 ∧
    ((∀ cid2, aget (run doubleAcceptOps).userCalls 30 = some cid2 → cid2 = 2) ∧
     ∃ c, aget (run doubleAcceptOps).activeCalls 2 = some c ∧
       ∃ p, aget c.participants 30 = some p ∧
         (p.status = "connecting" ∨ p.status = "connected")) :=
  ⟨by decide, single_occupancy_invariant doubleAcceptOps 30 2 (by decide)⟩

/-! ## Claim C2: disjointness -/

theorem smem_eq_false {s : List Nat} {x : Nat} : smem s x = false ↔ ¬ x ∈ s := by
  constructor
  · intro h hx
    rw [smem_iff.mpr hx] at h
    exact Bool.noConfusion h
  · intro h
    rcases hs : smem s x with _ | _
    · rfl
    · exact absurd (smem_iff.mp hs) h

theorem reqAvail_fst_mem {st : ServerState} {ts : List Nat} {a : Nat × List Socket}
    (h : a ∈ reqAvail st ts) : a.1 ∈ ts := by
  unfold reqAvail at h
  rcases List.mem_filterMap.mp h with ⟨t, ht, hf⟩
  by_cases h1 : isUserInCall st t = true
  · rw [if_pos h1] at hf
    exact Option.noConfusion hf
  · rw [if_neg h1] at hf
    by_cases h2 : (getUserSockets st t).isEmpty = true
    · rw [if_pos h2] at hf
      exact Option.noConfusion hf
    · rw [if_neg h2] at hf
      injection hf with h3
      rw [← h3]
      exact ht

theorem disjList_aset {A : List (Nat × Call)} {k : Nat} {c1 : Call}
    (hd : DisjList A)
    (hnew : ∀ q ∈ c1.participants, ¬ (q : Nat × Participant).1 ∈ c1.pendingInvites) :
    DisjList (aset A k c1) := by
  intro pr hpr q hq
  rcases mem_aset hpr with h4 | h4
  · subst h4
    exact hnew q hq
  · exact hd pr h4 q hq

theorem disjList_adel {A : List (Nat × Call)} {k : Nat} (hd : DisjList A) :
    DisjList (adel A k) :=
  fun pr hpr => hd pr (mem_adel hpr)

theorem disjList_entry {A : List (Nat × Call)} {k : Nat} {call : Call}
    (hd : DisjList A) (h : (k, call) ∈ A) :
    ∀ q ∈ call.participants, ¬ (q : Nat × Participant).1 ∈ call.pendingInvites :=
  fun q hq => hd (k, call) h q hq

theorem disj_acceptCall1 {call : Call} {u now : Nat}
    (hc : ∀ q ∈ call.participants, ¬ (q : Nat × Participant).1 ∈ call.pendingInvites) :
    ∀ q ∈ (acceptCall1 call u now).participants,
      ¬ (q : Nat × Participant).1 ∈ (acceptCall1 call u now).pendingInvites := by
  intro q hq hmem
  dsimp only [acceptCall1] at hq hmem
  rw [mem_sdel] at hmem
  rcases mem_aset hq with h4 | h4
  · rw [h4] at hmem
    exact hmem.2 rfl
  · exact hc q h4 hmem.1

theorem disj_reqNewCall {st : ServerState} {s : Socket} {d : ReqData} {nm : String} {now : Nat}
    (hfree : ¬ s.userId ∈ reqTargets d) :
    ∀ q ∈ (reqNewCall st s d nm now).participants,
      ¬ (q : Nat × Participant).1 ∈ (reqNewCall st s d nm now).pendingInvites := by
  intro q hq hmem
  dsimp only [reqNewCall] at hq hmem
  rw [List.mem_singleton] at hq
  subst hq
  rw [mem_sdedup] at hmem
  rcases List.mem_map.mp hmem with ⟨a, ha, hfst⟩
  have hfst2 : a.1 = s.userId := hfst
  exact hfree (hfst2 ▸ reqAvail_fst_mem ha)

theorem disj_addCall1 {call : Call} {t : Nat}
    (hc : ∀ q ∈ call.participants, ¬ (q : Nat × Participant).1 ∈ call.pendingInvites)
    (hnp : aget call.participants t = none) :
    ∀ q ∈ (addCall1 call t).participants,
      ¬ (q : Nat × Participant).1 ∈ (addCall1 call t).pendingInvites := by
  intro q hq hmem
  dsimp only [addCall1] at hq hmem
  rw [mem_sadd] at hmem
  rcases hmem with hmem | hmem
  · exact hc q hq hmem
  · exact aget_eq_none hnp q hq hmem

theorem disj_rejectCall1 {call : Call} {u : Nat}
    (hc : ∀ q ∈ call.participants, ¬ (q : Nat × Participant).1 ∈ call.pendingInvites) :
    ∀ q ∈ (rejectCall1 call u).participants,
      ¬ (q : Nat × Participant).1 ∈ (rejectCall1 call u).pendingInvites := by
  intro q hq hmem
  dsimp only [rejectCall1] at hq hmem
  exact hc q hq (mem_sdel.mp hmem).1

theorem disj_leaveCall1 {call : Call} {u : Nat}
    (hc : ∀ q ∈ call.participants, ¬ (q : Nat × Participant).1 ∈ call.pendingInvites) :
    ∀ q ∈ (leaveCall1 call u).participants,
      ¬ (q : Nat × Participant).1 ∈ (leaveCall1 call u).pendingInvites := by
  intro q hq hmem
  dsimp only [leaveCall1] at hq hmem
  exact hc q (mem_adel hq) hmem

theorem disj_endCall {st : ServerState} (cid : Nat) (reason : String) (hd : DisjGood st) :
    DisjGood (endCall st cid reason).1 := by
  rcases hget : aget st.activeCalls cid with _ | call
  · rw [endCall_none hget]
    exact hd
  · rw [endCall_some hget]
    exact disjList_adel hd

theorem disj_handleCallRequest {st : ServerState} {s : Socket} {d : ReqData}
    {nm : String} {now : Nat} (hd : DisjGood st) (hfree : ¬ s.userId ∈ reqTargets d) :
    DisjGood (handleCallRequest st s d nm now).1 := by
  rcases hb : isUserInCall st s.userId with _ | _
  · by_cases h2 : reqAvail st (reqTargets d) = []
    · rw [handleCallRequest_noAvail hb h2]
      exact hd
    · rw [handleCallRequest_succ hb h2]
      exact disjList_aset hd (disj_reqNewCall hfree)
  · rw [handleCallRequest_inCall hb]
    exact hd

theorem disj_handleCallAccept {st : ServerState} {s : Socket} {d : AcceptData}
    {nm : String} {now : Nat} (hd : DisjGood st) :
    DisjGood (handleCallAccept st s d nm now).1 := by
  rcases hres : resolveCall st d s.userId with _ | call
  · rw [handleCallAccept_none hres]
    exact hd
  · rw [handleCallAccept_some hres]
    obtain ⟨k, hk⟩ := resolveCall_mem hres
    exact disjList_aset hd (disj_acceptCall1 (disjList_entry hd hk))

theorem disj_handleCallReject {st : ServerState} {s : Socket} {d : AcceptData}
    (hd : DisjGood st) :
    DisjGood (handleCallReject st s d).1 := by
  rcases hres : resolveCall st d s.userId with _ | call
  · rw [handleCallReject_none hres]
    exact hd
  · obtain ⟨k, hk⟩ := resolveCall_mem hres
    have hd1 : DisjGood (rejectState st call s.userId) :=
      disjList_aset hd (disj_rejectCall1 (disjList_entry hd hk))
    rcases hcond : (call.participants.length == 1
        && ((sdel call.pendingInvites s.userId).length == 0)) with _ | _
    · rw [handleCallReject_stay hres hcond]
      exact hd1
    · rw [handleCallReject_collapse hres hcond]
      exact disj_endCall _ _ hd1

theorem disj_handleCallEnd {st : ServerState} {s : Socket} {reason nm : String}
    (hd : DisjGood st) :
    DisjGood (handleCallEnd st s reason nm).1 := by
  rcases h1 : aget st.userCalls s.userId with _ | cid
  · rw [handleCallEnd_noidx h1]
    exact hd
  · rcases h2 : aget st.activeCalls cid with _ | call
    · rw [handleCallEnd_nocall h1 h2]
      exact hd
    · have hd1 : DisjGood (leaveState st s cid call) :=
        disjList_aset hd (disj_leaveCall1 (disjList_entry hd (aget_mem h2)))
      rcases hcond : (s.userId == call.hostId
          || decide ((leaveCall1 call s.userId).participants.length < 1)) with _ | _
      · rw [handleCallEnd_stay h1 h2 hcond]
        exact hd1
      · rw [handleCallEnd_term h1 h2 hcond]
        exact disj_endCall _ _ hd1

theorem disj_handleAddParticipant {st : ServerState} {s : Socket} {d : AddData}
    {nm : String} (hd : DisjGood st) :
    DisjGood (handleAddParticipant st s d nm).1 := by
  rcases h1 : aget st.activeCalls d.callId with _ | call
  · rw [handleAddParticipant_nocall h1]
    exact hd
  · rcases h2 : aget call.participants s.userId with _ | p
    · rw [handleAddParticipant_notMember h1 h2]
      exact hd
    · rcases h3 : ((aget call.participants d.targetUserId).isSome
          || smem call.pendingInvites d.targetUserId) with _ | _
      · rcases h4 : isUserInCall st d.targetUserId with _ | _
        · by_cases h5 : getUserSockets st d.targetUserId = []
          · rw [handleAddParticipant_unreachable h1 h2 h3 h4 h5]
            exact hd
          · rw [handleAddParticipant_succ h1 h2 h3 h4 h5]
            have hnp : aget call.participants d.targetUserId = none := by
              rcases hna : aget call.participants d.targetUserId with _ | q
              · rfl
              · rw [hna] at h3
                simp at h3
            exact disjList_aset hd (disj_addCall1 (disjList_entry hd (aget_mem h1)) hnp)
        · rw [handleAddParticipant_inOther h1 h2 h3 h4]
          exact hd
      · rw [handleAddParticipant_already h1 h2 h3]
        exact hd

theorem disj_handleDisconnection {st : ServerState} {s : Socket} (hd : DisjGood st) :
    DisjGood (handleDisconnection st s).1 := by
  rcases h1 : aget st.userCalls s.userId with _ | cid
  · rw [handleDisconnection_noidx h1]
    exact hd
  · rcases h2 : aget st.activeCalls cid with _ | call
    · rw [handleDisconnection_nocall h1 h2]
      exact hd
    · by_cases hrem : ((getUserSockets st s.userId).filter
          (fun x => !(x.sid == s.sid))).length > 0
      · rw [handleDisconnection_other h1 h2 hrem]
        exact hd
      · have hd1 : DisjGood (discState st s.userId cid call) :=
          disjList_aset hd (disj_leaveCall1 (disjList_entry hd (aget_mem h2)))
        rcases hcond : (s.userId == call.hostId
            || decide ((leaveCall1 call s.userId).participants.length < 1)) with _ | _
        · rw [handleDisconnection_stay h1 h2 hrem hcond]
          exact hd1
        · rw [handleDisconnection_term h1 h2 hrem hcond]
          exact disj_endCall _ _ hd1

theorem disj_step {st : ServerState} (op : Op) (hd : DisjGood st)
    (hfree : selfFreeOp st op = true) : DisjGood (step st op).1 := by
  cases op with
  | connect sid uid =>
    simp only [step]
    by_cases hc : st.sockets.any (fun s => s.sid == sid) = true
    · rw [if_pos hc]
      exact hd
    · rw [if_neg hc]
      exact hd
  | request sid d nm now =>
    simp only [step]
    rcases hs : findSocket st sid with _ | sk
    · exact hd
    · have hfree2 : smem (reqTargets d) sk.userId = false := by
        simp only [selfFreeOp] at hfree
        rw [hs] at hfree
        simpa using hfree
      exact disj_handleCallRequest hd (smem_eq_false.mp hfree2)
  | accept sid d nm now =>
    simp only [step]
    rcases hs : findSocket st sid with _ | sk
    · exact hd
    · exact disj_handleCallAccept hd
  | reject sid d =>
    simp only [step]
    rcases hs : findSocket st sid with _ | sk
    · exact hd
    · exact disj_handleCallReject hd
  | leave sid reason nm =>
    simp only [step]
    rcases hs : findSocket st sid with _ | sk
    · exact hd
    · exact disj_handleCallEnd hd
  | add sid d nm =>
    simp only [step]
    rcases hs : findSocket st sid with _ | sk
    · exact hd
    · exact disj_handleAddParticipant hd
  | chat sid cid content snm now =>
    simp only [step]
    rcases hs : findSocket st sid with _ | sk
    · exact hd
    · rw [chat_state_eq]
      exact hd
  | disconnect sid =>
    simp only [step]
    rcases hs : findSocket st sid with _ | sk
    · exact hd
    · exact disj_handleDisconnection hd

theorem disj_runFrom {st : ServerState} (ops : List Op) (hd : DisjGood st)
    (hfree : selfFreeFrom st ops = true) : DisjGood (runFrom st ops) := by
  induction ops generalizing st with
  | nil => exact hd
  | cons op rest ih =>
    simp only [selfFreeFrom, Bool.and_eq_true] at hfree
    exact ih (disj_step op hd hfree.1) hfree.2

theorem disjointB_eq_true_iff {st : ServerState} :
    disjointB st = true ↔ DisjGood st := by
  unfold disjointB DisjGood DisjList
  rw [List.all_eq_true]
  constructor
  · intro h pr hpr q hq hmem
    have h2 := h pr hpr
    rw [List.all_eq_true] at h2
    have h3 := h2 q hq
    rw [smem_iff.mpr hmem] at h3
    exact Bool.noConfusion h3
  · intro h pr hpr
    rw [List.all_eq_true]
    intro q hq
    have h2 := h pr hpr q hq
    rcases hs : smem pr.2.pendingInvites q.1 with _ | _
    · rfl
    · exact absurd (smem_iff.mp hs) h2

/-- C2 counterexample: the claim fails as stated.  From the empty state, user
10 connects and requests a call whose target list contains user 10 itself; the
created session has user 10 both as a participant and as a pending invite, so
`participants` and `pendingInvites` are not disjoint. -/
theorem disjoint_counterexample :
    disjointB (run selfCallOps) = false ∧
    aget (run selfCallOps).activeCalls 1
      = some { callId := 1, hostId := 10, hostName := "Ana",
               participants := [(10, ⟨10, "connected", 5⟩)], pendingInvites := [10],
               status := "ringing", startTime := 5, offer := "of", callType := "audio" } :=
  ⟨by decide, by decide⟩

/-- C2 amended: provided no call request ever names the requesting user among
its own targets, every session reachable from the empty state keeps
`participants` and `pendingInvites` disjoint after every completed
operation. -/
theorem disjoint_invariant_selffree (ops : List Op)
    (h : selfFreeFrom initState ops = true) :
    disjointB (run ops) = true := by
  rw [disjointB_eq_true_iff]
  exact disj_runFrom ops (fun pr hpr => by simp [initState] at hpr) h

/-- Witness for the amended C2 on a two-party call trace without
self-targeting. -/
theorem disjoint_invariant_selffree_witness :
    selfFreeFrom initState lonePendingOps = true ∧
    disjointB (run lonePendingOps) = true :=
  ⟨by decide, disjoint_invariant_selffree lonePendingOps (by decide)⟩

/-! ## Claim C3: accept precondition -/

theorem findByHost_pending {st : ServerState} {co : Option Nat} {u : Nat} {call : Call}
    (h : findByHost st co u = some call) :
    smem call.pendingInvites u = true := by
  unfold findByHost at h
  split at h
  · simp at h
  · rename_i cid
    rcases hfind : st.activeCalls.find?
        (fun p => p.2.hostId == cid && smem p.2.pendingInvites u) with _ | pr
    · rw [hfind] at h
      simp at h
    · rw [hfind] at h
      simp at h
      have h2 := List.find?_some hfind
      rw [Bool.and_eq_true] at h2
      rw [← h]
      exact h2.2

theorem resolveCall_byId {st : ServerState} {d : AcceptData} {u c2 : Nat} {call : Call}
    (hdc : d.callId = some c2) (hga : aget st.activeCalls c2 = some call) :
    resolveCall st d u = some call := by
  unfold resolveCall
  rw [hdc]
  split
  · rename_i call2 hga2
    injection hga2 with he
    subst he
    rw [hga]
  · rename_i hga2
    exact Option.noConfusion hga2

theorem resolveCall_fallback {st : ServerState} {d : AcceptData} {u : Nat}
    (h : d.callId = none ∨ ∃ c2, d.callId = some c2 ∧ aget st.activeCalls c2 = none) :
    resolveCall st d u = findByHost st d.callerId u := by
  unfold resolveCall
  rcases h with h | ⟨c2, hdc, hga⟩
  · rw [h]
  · rw [hdc]
    split
    · rename_i call2 hga2
      injection hga2 with he
      subst he
      split
      · rename_i call3 hga3
        rw [hga] at hga3
        exact Option.noConfusion hga3
      · rfl
    · rename_i hga2
      exact Option.noConfusion hga2

/-- C3 amended: an accept that resolves no session fails with an error and
leaves the state untouched; the backward-compatibility host lookup only
resolves sessions in which the acting user has a pending invite; but an
accept that resolves its session by call id succeeds regardless of
`pendingInvites` membership.  Every resolved accept removes the user from
`pendingInvites` (a no-op when absent), stores the user as a `connecting`
participant, records the session in the user-to-call index, and sets the
session status to `active`. -/
theorem accept_precondition_amended (st : ServerState) (s : Socket) (d : AcceptData)
    (nm : String) (now : Nat) :
    (resolveCall st d s.userId = none →
      handleCallAccept st s d nm now
        = (st, [⟨s.sid, Payload.callError "Llamada no encontrada"⟩])) ∧
    (∀ call, resolveCall st d s.userId = some call →
      (handleCallAccept st s d nm now).1.activeCalls
        = aset st.activeCalls call.callId (acceptCall1 call s.userId now) ∧
      (handleCallAccept st s d nm now).1.userCalls
        = aset st.userCalls s.userId call.callId ∧
      (acceptCall1 call s.userId now).status = "active" ∧
      aget (acceptCall1 call s.userId now).participants s.userId
        = some ⟨s.userId, "connecting", now⟩ ∧
      ¬ s.userId ∈ (acceptCall1 call s.userId now).pendingInvites) ∧
    (∀ c2 call, d.callId = some c2 → aget st.activeCalls c2 = some call →
      resolveCall st d s.userId = some call) ∧
    (∀ call, (d.callId = none ∨ ∃ c2, d.callId = some c2 ∧ aget st.activeCalls c2 = none) →
      resolveCall st d s.userId = some call →
      smem call.pendingInvites s.userId = true) := by
  refine ⟨?_, ?_, ?_, ?_⟩
  · intro h
    exact handleCallAccept_none h
  · intro call h
    rw [handleCallAccept_some h]
    refine ⟨rfl, rfl, rfl, ?_, ?_⟩
    · dsimp only [acceptCall1]
      rw [aget_aset, if_pos rfl]
    · dsimp only [acceptCall1]
      intro hmem
      exact (mem_sdel.mp hmem).2 rfl
  · intro c2 call hdc hga
    exact resolveCall_byId hdc hga
  · intro call hfb hres
    rw [resolveCall_fallback hfb] at hres
    exact findByHost_pending hres

/-- C3 counterexample: in the `uninvitedOps` trace user 30 is not in the
resolved session's `pendingInvites`, yet the accept by call id succeeds: user
30 becomes a `connecting` participant, the user-to-call index records the
session, and the status changes to `active`. -/
theorem accept_precondition_counterexample :
    (∃ c, aget (run (List.take 4 uninvitedOps)).activeCalls 1 = some c ∧
      smem c.pendingInvites 30 = false) ∧
    (∃ c, aget (run uninvitedOps).activeCalls 1 = some c ∧
      aget c.participants 30 = some ⟨30, "connecting", 6⟩ ∧
      smem c.pendingInvites 30 = false ∧ c.status = "active") ∧
    aget (run uninvitedOps).userCalls 30 = some 1 :=
  ⟨⟨{ callId := 1, hostId := 10, hostName := "Ana",
      participants := [(10, ⟨10, "connected", 5⟩)], pendingInvites := [20],
      status := "ringing", startTime := 5, offer := "of", callType := "audio" },
    by decide, by decide⟩,
   ⟨{ callId := 1, hostId := 10, hostName := "Ana",
      participants := [(10, ⟨10, "connected", 5⟩), (30, ⟨30, "connecting", 6⟩)],
      pendingInvites := [20],
      status := "active", startTime := 5, offer := "of", callType := "audio" },
    by decide, by decide, by decide, by decide⟩,
   by decide⟩

/-- Witness for the amended C3: an accept that resolves nothing fails with an
error and no state change. -/
theorem accept_precondition_amended_witness :
    handleCallAccept initState ⟨1, 10⟩ ⟨none, none⟩ "Ana" 5
      = (initState, [⟨1, Payload.callError "Llamada no encontrada"⟩]) :=
  (accept_precondition_amended initState ⟨1, 10⟩ ⟨none, none⟩ "Ana" 5).1 (by decide)

/-! ## Claim C4: partial-success call creation -/

theorem bool_eq_false {b : Bool} (h : ¬ b = true) : b = false := by
  rcases hb : b with _ | _
  · rfl
  · exact absurd hb h

theorem bool_or_false {a b : Bool} (h : (a || b) = false) : a = false ∧ b = false := by
  constructor
  · rcases ha : a with _ | _
    · rfl
    · rw [ha] at h
      simp at h
  · rcases hb : b with _ | _
    · rfl
    · rw [hb] at h
      simp at h

theorem reqAvail_mem_avail {st : ServerState} {ts : List Nat} {a : Nat × List Socket}
    (h : a ∈ reqAvail st ts) : unavailPred st a.1 = false := by
  unfold reqAvail at h
  rcases List.mem_filterMap.mp h with ⟨t, ht, hf⟩
  by_cases h1 : isUserInCall st t = true
  · rw [if_pos h1] at hf
    exact Option.noConfusion hf
  · rw [if_neg h1] at hf
    by_cases h2 : (getUserSockets st t).isEmpty = true
    · rw [if_pos h2] at hf
      exact Option.noConfusion hf
    · rw [if_neg h2] at hf
      injection hf with h3
      have ha1 : a.1 = t := by rw [← h3]
      rw [ha1]
      simp [unavailPred, bool_eq_false h1, bool_eq_false h2]

theorem reqAvail_cons_unavail {st : ServerState} {t : Nat} {rest : List Nat}
    (h : unavailPred st t = true) :
    reqAvail st (t :: rest) = reqAvail st rest := by
  unfold reqAvail
  rw [List.filterMap_cons]
  rcases h1 : isUserInCall st t with _ | _
  · have h2 : (getUserSockets st t).isEmpty = true := by
      unfold unavailPred at h
      rw [h1] at h
      simpa using h
    rw [if_neg (by simp), if_pos h2]
  · rw [if_pos rfl]

theorem reqAvail_cons_avail {st : ServerState} {t : Nat} {rest : List Nat}
    (h1 : isUserInCall st t = false) (h2 : (getUserSockets st t).isEmpty = false) :
    reqAvail st (t :: rest) = (t, getUserSockets st t) :: reqAvail st rest := by
  unfold reqAvail
  rw [List.filterMap_cons, if_neg (by simp [h1]), if_neg (by simp [h2])]

theorem reqAvail_map_fst (st : ServerState) (ts : List Nat) :
    (reqAvail st ts).map (fun a => a.1) = ts.filter (fun t => !(unavailPred st t)) := by
  induction ts with
  | nil => rfl
  | cons t rest ih =>
    rcases hu : unavailPred st t with _ | _
    · have h12 : isUserInCall st t = false ∧ (getUserSockets st t).isEmpty = false := by
        unfold unavailPred at hu
        exact bool_or_false hu
      rw [reqAvail_cons_avail h12.1 h12.2, List.map_cons, ih, List.filter_cons]
      simp [hu]
    · rw [reqAvail_cons_unavail hu, ih, List.filter_cons]
      simp [hu]

theorem reqAvail_nil_iff (st : ServerState) (ts : List Nat) :
    reqAvail st ts = [] ↔ ts.all (unavailPred st) = true := by
  constructor
  · intro h
    rw [List.all_eq_true]
    intro t ht
    rcases hu : unavailPred st t with _ | _
    · exfalso
      have hmem : t ∈ ts.filter (fun x => !(unavailPred st x)) :=
        List.mem_filter.mpr ⟨ht, by simp [hu]⟩
      rw [← reqAvail_map_fst] at hmem
      rw [h] at hmem
      simp at hmem
    · rfl
  · intro h
    rcases hra : reqAvail st ts with _ | ⟨a, rest⟩
    · rfl
    · exfalso
      have ha : a ∈ reqAvail st ts := by
        rw [hra]
        exact List.mem_cons_self _ _
      have ht := reqAvail_fst_mem ha
      rw [List.all_eq_true] at h
      have hu := h a.1 ht
      rw [reqAvail_mem_avail ha] at hu
      exact Bool.noConfusion hu

theorem reqIncoming_payload {st : ServerState} {s : Socket} {d : ReqData} {nm : String}
    {e : Event}
    (h : e ∈ ((reqAvail st (reqTargets d)).map (fun a =>
        a.2.map (fun ts => Event.mk ts.sid
          (Payload.callIncoming st.nextCallId s.userId nm (decide ((reqTargets d).length > 1))
            ((reqTargets d).length + 1) d.offer (d.callType.getD "audio"))))).flatten) :
    e.payload = Payload.callIncoming st.nextCallId s.userId nm
      (decide ((reqTargets d).length > 1)) ((reqTargets d).length + 1) d.offer
      (d.callType.getD "audio") := by
  rw [List.mem_flatten] at h
  rcases h with ⟨l, hl, he⟩
  rcases List.mem_map.mp hl with ⟨a, ha, hla⟩
  rw [← hla] at he
  rcases List.mem_map.mp he with ⟨ts, hts, hee⟩
  rw [← hee]

/-- C4: for a request by a caller not already in a call, each target is
classified unavailable exactly when it is in a call or unreachable; if every
target is unavailable the request fails with an error to the caller and no
state changes; otherwise exactly one new session is created in state
`ringing` with the caller as sole (connected) participant and the available
targets as `pendingInvites`, and an unavailable notice listing exactly the
unavailable targets goes to the caller iff some target was unavailable. -/
theorem request_unavailable_split (st : ServerState) (s : Socket) (d : ReqData)
    (nm : String) (now : Nat)
    (hb : isUserInCall st s.userId = false)
    (hne : reqTargets d ≠ [])
    (hfr : st.activeCalls.all (fun pr => decide (pr.1 < st.nextCallId)) = true) :
    ((reqTargets d).all (unavailPred st) = true →
      handleCallRequest st s d nm now
        = (st, [⟨s.sid, Payload.callError "Ningún usuario está disponible"⟩])) ∧
    ((reqTargets d).all (unavailPred st) = false →
      aget st.activeCalls st.nextCallId = none ∧
      (handleCallRequest st s d nm now).1.activeCalls
        = aset st.activeCalls st.nextCallId (reqNewCall st s d nm now) ∧
      (handleCallRequest st s d nm now).1.userCalls
        = aset st.userCalls s.userId st.nextCallId ∧
      (reqNewCall st s d nm now).status = "ringing" ∧
      (reqNewCall st s d nm now).participants
        = [(s.userId, ⟨s.userId, "connected", now⟩)] ∧
      (∀ x, x ∈ (reqNewCall st s d nm now).pendingInvites ↔
        x ∈ reqTargets d ∧ unavailPred st x = false) ∧
      ((reqTargets d).filter (unavailPred st) ≠ [] →
        Event.mk s.sid (Payload.callUsersUnavailable ((reqTargets d).filter (unavailPred st)))
          ∈ (handleCallRequest st s d nm now).2) ∧
      ((reqTargets d).filter (unavailPred st) = [] →
        ∀ l, Event.mk s.sid (Payload.callUsersUnavailable l)
          ∉ (handleCallRequest st s d nm now).2)) := by
  have hfresh : aget st.activeCalls st.nextCallId = none := by
    rcases hget : aget st.activeCalls st.nextCallId with _ | c
    · rfl
    · exfalso
      rw [List.all_eq_true] at hfr
      have := of_decide_eq_true (hfr _ (aget_mem hget))
      exact absurd this (lt_irrefl _)
  constructor
  · intro hall
    exact handleCallRequest_noAvail hb ((reqAvail_nil_iff st (reqTargets d)).mpr hall)
  · intro hall
    have h2 : reqAvail st (reqTargets d) ≠ [] := by
      intro hnil
      rw [(reqAvail_nil_iff st (reqTargets d)).mp hnil] at hall
      exact Bool.noConfusion hall
    refine ⟨hfresh, ?_, ?_, rfl, rfl, ?_, ?_, ?_⟩
    · rw [handleCallRequest_succ hb h2]
    · rw [handleCallRequest_succ hb h2]
    · intro x
      show x ∈ sdedup ((reqAvail st (reqTargets d)).map (fun a => a.1)) ↔ _
      rw [mem_sdedup, reqAvail_map_fst]
      rw [List.mem_filter]
      constructor
      · rintro ⟨hx1, hx2⟩
        exact ⟨hx1, by simpa using hx2⟩
      · rintro ⟨hx1, hx2⟩
        exact ⟨hx1, by simp [hx2]⟩
    · intro hnn
      rw [handleCallRequest_succ hb h2]
      have hpos : ((reqTargets d).filter (unavailPred st)).length > 0 :=
        List.length_pos.mpr hnn
      rw [if_pos hpos]
      refine List.mem_cons_of_mem _ (List.mem_append_right _ ?_)
      exact List.mem_singleton_self _
    · intro hnil l hmem
      rw [handleCallRequest_succ hb h2] at hmem
      have hzero : ¬ ((reqTargets d).filter (unavailPred st)).length > 0 := by
        rw [hnil]
        simp
      rw [if_neg hzero] at hmem
      rcases List.mem_cons.mp hmem with hmem | hmem
      · injection hmem with _ hpl
        exact Payload.noConfusion hpl
      · rcases List.mem_append.mp hmem with hmem | hmem
        · exact Payload.noConfusion (reqIncoming_payload hmem)
        · simp at hmem

/-- Witness for C4 on a concrete request: caller 10 rings users 20 and 40
where 40 has no connection; a session is created and the unavailable notice
lists exactly user 40. -/
theorem request_unavailable_split_witness :
    isUserInCall (run [Op.connect 1 10, Op.connect 2 20]) 10 = false ∧
    Event.mk 1 (Payload.callUsersUnavailable [40])
      ∈ (handleCallRequest (run [Op.connect 1 10, Op.connect 2 20]) ⟨1, 10⟩
          ⟨some [20, 40], 20, "of", some "video"⟩ "Ana" 5).2 := by
  refine ⟨by decide, ?_⟩
  have h := (request_unavailable_split (run [Op.connect 1 10, Op.connect 2 20]) ⟨1, 10⟩
    ⟨some [20, 40], 20, "of", some "video"⟩ "Ana" 5 (by decide) (by decide) (by decide)).2
    (by decide)
  have h2 := h.2.2.2.2.2.2.1 (by decide)
  simpa using h2

/-! ## Claim C5: reject collapse -/

/-- C5: a reject on a resolved session removes the acting user from its
`pendingInvites`; if afterwards the participants map has exactly one entry
and `pendingInvites` is empty, the session is terminated with reason
`rejected` and removed from the registry; otherwise it remains registered
with the shrunk invite set. -/
theorem reject_collapse (st : ServerState) (s : Socket) (d : AcceptData) (call : Call)
    (hres : resolveCall st d s.userId = some call) :
    ¬ s.userId ∈ (rejectCall1 call s.userId).pendingInvites ∧
    (call.participants.length = 1 ∧ (rejectCall1 call s.userId).pendingInvites = [] →
      aget (handleCallReject st s d).1.activeCalls call.callId = none ∧
      (handleCallReject st s d).2
        = emitToRoom (rejectState st call s.userId) call.callId
            (Payload.participantRejected call.callId s.userId)
          ++ emitToRoom (rejectState st call s.userId) call.callId
            (Payload.callEnded call.callId "rejected")) ∧
    (¬ (call.participants.length = 1 ∧ (rejectCall1 call s.userId).pendingInvites = []) →
      aget (handleCallReject st s d).1.activeCalls call.callId
        = some (rejectCall1 call s.userId)) := by
  refine ⟨?_, ?_, ?_⟩
  · dsimp only [rejectCall1]
    intro hmem
    exact (mem_sdel.mp hmem).2 rfl
  · rintro ⟨hlen, hpend⟩
    have hpend2 : sdel call.pendingInvites s.userId = [] := hpend
    have hcond : (call.participants.length == 1
        && ((sdel call.pendingInvites s.userId).length == 0)) = true := by
      simp [hlen, hpend2]
    rw [handleCallReject_collapse hres hcond]
    have hag1 : aget (rejectState st call s.userId).activeCalls call.callId
        = some (rejectCall1 call s.userId) := by
      dsimp only [rejectState]
      rw [aget_aset, if_pos rfl]
    rw [endCall_some hag1]
    constructor
    · dsimp only
      rw [aget_adel, if_pos rfl]
    · rfl
  · intro hnc
    have hcond : (call.participants.length == 1
        && ((sdel call.pendingInvites s.userId).length == 0)) = false := by
      rcases hc : (call.participants.length == 1
          && ((sdel call.pendingInvites s.userId).length == 0)) with _ | _
      · rfl
      · exfalso
        rw [Bool.and_eq_true] at hc
        apply hnc
        refine ⟨by simpa using hc.1, ?_⟩
        have h0 : (sdel call.pendingInvites s.userId).length = 0 := by simpa using hc.2
        dsimp only [rejectCall1]
        exact List.length_eq_zero.mp h0
    rw [handleCallReject_stay hres hcond]
    dsimp only [rejectState]
    rw [aget_aset, if_pos rfl]

/-- Witness for C5: a two-party ringing call whose lone invitee rejects is
removed from the registry. -/
theorem reject_collapse_witness :
    aget (handleCallReject (run lonePendingOps) ⟨2, 20⟩ ⟨none, some 1⟩).1.activeCalls 1
      = none :=
  ((reject_collapse (run lonePendingOps) ⟨2, 20⟩ ⟨none, some 1⟩
      { callId := 1, hostId := 10, hostName := "Ana",
        participants := [(10, ⟨10, "connected", 5⟩)], pendingInvites := [20],
        status := "ringing", startTime := 5, offer := "of", callType := "audio" }
      (by decide)).2.1 ⟨by decide, by decide⟩).1

/-! ## Claim C6: in-call chat routing -/

theorem mem_emitToRoomExcept {st : ServerState} {cid ex : Nat} {pl : Payload} {e : Event}
    (h : e ∈ emitToRoomExcept st cid ex pl) : e.payload = pl ∧ e.target ≠ ex := by
  unfold emitToRoomExcept at h
  rcases List.mem_map.mp h with ⟨x, hx, he⟩
  rcases List.mem_filter.mp hx with ⟨hx2, hxne⟩
  rw [← he]
  exact ⟨rfl, by simpa using hxne⟩

/-- C6 counterexample: the claim fails as stated.  In the `twoDeviceOps`
trace user 20 accepted call 1 from sockets 2 and 3, so both sockets are in
the call room; a chat message sent by user 20 from socket 2 is delivered to
socket 3 — a connection of the sender itself. -/
theorem chat_routing_counterexample :
    findSocket (run twoDeviceOps) 3 = some ⟨3, 20⟩ ∧
    findSocket (run twoDeviceOps) 2 = some ⟨2, 20⟩ ∧
    Event.mk 3 (Payload.callChatMessage 1 20 "Usuario" "hola" 8)
      ∈ (step (run twoDeviceOps) (Op.chat 2 1 "hola" none 8)).2 :=
  ⟨by decide, by decide, by decide⟩

/-- C6 amended: a sender whose index entry is absent or names a different
call gets an error and nothing is delivered; a sender whose index entry names
the registered call has the message delivered to exactly the sockets joined
to the call's room other than the sending socket. The sending socket never
receives it, but other connections of the sender that joined the room do. -/
theorem chat_routing_amended (st : ServerState) (s : Socket) (callId : Nat)
    (content : String) (snm : Option String) (now : Nat) :
    ((∀ cid2, aget st.userCalls s.userId = some cid2 → cid2 ≠ callId) →
      handleCallChatMessage st s callId content snm now
        = (st, [⟨s.sid, Payload.callError "No estás en esta llamada"⟩])) ∧
    (aget st.userCalls s.userId = some callId →
      ∀ c, aget st.activeCalls callId = some c →
        handleCallChatMessage st s callId content snm now
          = (st, emitToRoomExcept st callId s.sid
              (Payload.callChatMessage callId s.userId (snm.getD "Usuario") content now)) ∧
        ∀ pl, Event.mk s.sid pl ∉ (handleCallChatMessage st s callId content snm now).2) := by
  constructor
  · intro hno
    rcases h : aget st.userCalls s.userId with _ | ucid
    · exact handleCallChatMessage_noidx h
    · exact handleCallChatMessage_other h (hno ucid h)
  · intro h c hc
    refine ⟨handleCallChatMessage_send h hc, ?_⟩
    intro pl hmem
    rw [handleCallChatMessage_send h hc] at hmem
    exact (mem_emitToRoomExcept hmem).2 rfl

/-- Witness for the amended C6: user 20, a confirmed participant of call 1,
sends a chat message from socket 2; it is relayed to the room except the
sending socket and the state is unchanged. -/
theorem chat_routing_amended_witness :
    handleCallChatMessage (run twoSocketCallOps) ⟨2, 20⟩ 1 "hola" none 8
      = (run twoSocketCallOps, emitToRoomExcept (run twoSocketCallOps) 1 2
          (Payload.callChatMessage 1 20 "Usuario" "hola" 8)) :=
  ((chat_routing_amended (run twoSocketCallOps) ⟨2, 20⟩ 1 "hola" none 8).2 (by decide)
    { callId := 1, hostId := 10, hostName := "Ana",
      participants := [(10, ⟨10, "connected", 5⟩), (20, ⟨20, "connecting", 6⟩)],
      pendingInvites := [], status := "active", startTime := 5, offer := "of",
      callType := "audio" } (by decide)).1

/-! ## Claim C7: multi-device disconnect resilience -/

theorem findSocket_sid {st : ServerState} {sid : Nat} {s : Socket}
    (h : findSocket st sid = some s) : s.sid = sid := by
  unfold findSocket at h
  have h2 := List.find?_some h
  simpa using h2

theorem getUserSockets_dropSocket (st : ServerState) (sid u : Nat) :
    getUserSockets (dropSocket st sid) u
      = (getUserSockets st u).filter (fun x => !(x.sid == sid)) := by
  unfold getUserSockets dropSocket
  dsimp only
  rw [List.filter_filter, List.filter_filter]
  congr 1
  funext a
  rw [Bool.and_comm]

theorem remaining_dropSocket (st : ServerState) (sid u : Nat) :
    (getUserSockets (dropSocket st sid) u).filter (fun x => !(x.sid == sid))
      = (getUserSockets st u).filter (fun x => !(x.sid == sid)) := by
  rw [getUserSockets_dropSocket, List.filter_filter]
  congr 1
  funext a
  rw [Bool.and_self]

theorem discCondProp {u : Nat} {call : Call} :
    (u == call.hostId || decide ((leaveCall1 call u).participants.length < 1)) = true
      ↔ (u = call.hostId ∨ (leaveCall1 call u).participants = []) := by
  simp [Nat.lt_one_iff, List.length_eq_zero]

/-- C7: for a connection-lost event of a user who is a confirmed participant
of the session named by their index entry: if another live connection of the
user remains, the session registry and the user-to-call index are unchanged;
if it was the last connection, the user is removed from the participants map
and the index, and the session is terminated with reason `disconnected`
exactly when the user was the host or no participants remain. -/
theorem multi_device_disconnect (st : ServerState) (sid cid : Nat) (s : Socket)
    (call : Call)
    (hs : findSocket st sid = some s)
    (hu : aget st.userCalls s.userId = some cid)
    (hc : aget st.activeCalls cid = some call)
    (hp : (aget call.participants s.userId).isSome = true) :
    (((getUserSockets st s.userId).filter (fun x => !(x.sid == sid))).length > 0 →
      (step st (Op.disconnect sid)).1.activeCalls = st.activeCalls ∧
      (step st (Op.disconnect sid)).1.userCalls = st.userCalls) ∧
    (((getUserSockets st s.userId).filter (fun x => !(x.sid == sid))).length = 0 →
      aget (step st (Op.disconnect sid)).1.userCalls s.userId = none ∧
      aget (leaveCall1 call s.userId).participants s.userId = none ∧
      ((s.userId = call.hostId ∨ (leaveCall1 call s.userId).participants = []) →
        aget (step st (Op.disconnect sid)).1.activeCalls cid = none ∧
        (step st (Op.disconnect sid)).2
          = emitToRoom (discState (dropSocket st sid) s.userId cid call) cid
              (Payload.participantLeft cid s.userId "Usuario"
                ((leaveCall1 call s.userId).participants.length) "disconnected")
            ++ emitToRoom (discState (dropSocket st sid) s.userId cid call) cid
              (Payload.callEnded cid "disconnected")) ∧
      (¬ (s.userId = call.hostId ∨ (leaveCall1 call s.userId).participants = []) →
        aget (step st (Op.disconnect sid)).1.activeCalls cid
          = some (leaveCall1 call s.userId))) := by
  have hsid := findSocket_sid hs
  subst hsid
  have hstep : step st (Op.disconnect s.sid)
      = handleDisconnection (dropSocket st s.sid) s := by
    simp only [step, hs]
  have hu2 : aget (dropSocket st s.sid).userCalls s.userId = some cid := hu
  have hc2 : aget (dropSocket st s.sid).activeCalls cid = some call := hc
  constructor
  · intro hpos
    have hr : ((getUserSockets (dropSocket st s.sid) s.userId).filter
        (fun x => !(x.sid == s.sid))).length > 0 := by
      rw [remaining_dropSocket]
      exact hpos
    rw [hstep, handleDisconnection_other hu2 hc2 hr]
    exact ⟨rfl, rfl⟩
  · intro hzero
    have hr : ¬ ((getUserSockets (dropSocket st s.sid) s.userId).filter
        (fun x => !(x.sid == s.sid))).length > 0 := by
      rw [remaining_dropSocket, hzero]
      simp
    rcases hcond : (s.userId == call.hostId
        || decide ((leaveCall1 call s.userId).participants.length < 1)) with _ | _
    · rw [hstep, handleDisconnection_stay hu2 hc2 hr hcond]
      refine ⟨?_, ?_, ?_, ?_⟩
      · dsimp only [discState]
        rw [aget_adel, if_pos rfl]
      · dsimp only [leaveCall1]
        rw [aget_adel, if_pos rfl]
      · intro hor
        exfalso
        rw [discCondProp.mpr hor] at hcond
        exact Bool.noConfusion hcond
      · intro _
        dsimp only [discState]
        rw [aget_aset, if_pos rfl]
    · rw [hstep, handleDisconnection_term hu2 hc2 hr hcond]
      have hag2 : aget (discState (dropSocket st s.sid) s.userId cid call).activeCalls cid
          = some (leaveCall1 call s.userId) := by
        dsimp only [discState]
        rw [aget_aset, if_pos rfl]
      refine ⟨?_, ?_, ?_, ?_⟩
      · rw [endCall_some hag2]
        dsimp only
        rw [aget_foldl_adel]
        by_cases hin : s.userId
            ∈ ((leaveCall1 call s.userId).participants.map (fun p => p.1))
        · rw [if_pos hin]
        · rw [if_neg hin]
          dsimp only [discState]
          rw [aget_adel, if_pos rfl]
      · dsimp only [leaveCall1]
        rw [aget_adel, if_pos rfl]
      · intro _
        rw [endCall_some hag2]
        constructor
        · dsimp only
          rw [aget_adel, if_pos rfl]
        · rfl
      · intro hnor
        exfalso
        exact hnor (discCondProp.mp hcond)

/-- Witness for C7: user 20 holds sockets 2 and 3 inside an active call;
dropping socket 2 leaves the registry and the index unchanged. -/
theorem multi_device_disconnect_witness :
    (step (run twoSocketCallOps) (Op.disconnect 2)).1.activeCalls
      = (run twoSocketCallOps).activeCalls ∧
    (step (run twoSocketCallOps) (Op.disconnect 2)).1.userCalls
      = (run twoSocketCallOps).userCalls :=
  (multi_device_disconnect (run twoSocketCallOps) 2 1 ⟨2, 20⟩
    { callId := 1, hostId := 10, hostName := "Ana",
      participants := [(10, ⟨10, "connected", 5⟩), (20, ⟨20, "connecting", 6⟩)],
      pendingInvites := [], status := "active", startTime := 5, offer := "of",
      callType := "audio" }
    (by decide) (by decide) (by decide) (by decide)).1 (by decide)

/-! ## Claim C8: fail-closed validation -/

theorem mem_emitToRoom_payload {st : ServerState} {cid : Nat} {pl : Payload} {e : Event}
    (h : e ∈ emitToRoom st cid pl) : e.payload = pl := by
  unfold emitToRoom at h
  rcases List.mem_map.mp h with ⟨x, hx, he⟩
  rw [← he]

theorem isErrorEvent_eq {e : Event} (h : isErrorEvent e = true) :
    ∃ m, e.payload = Payload.callError m := by
  rcases e with ⟨tg, pl⟩
  cases pl <;> simp [isErrorEvent] at h ⊢

theorem failClosed_request (st : ServerState) (s : Socket) (d : ReqData) (nm : String)
    (now : Nat) : FailClosed st s.sid (handleCallRequest st s d nm now) := by
  rcases hb : isUserInCall st s.userId with _ | _
  · by_cases h2 : reqAvail st (reqTargets d) = []
    · rw [handleCallRequest_noAvail hb h2]
      intro _
      exact ⟨rfl, "Ningún usuario está disponible", rfl⟩
    · rw [handleCallRequest_succ hb h2]
      rintro ⟨e, hmem, herr⟩
      exfalso
      obtain ⟨m, hm⟩ := isErrorEvent_eq herr
      rcases List.mem_cons.mp hmem with he | he
      · rw [he] at hm
        exact Payload.noConfusion hm
      · rcases List.mem_append.mp he with he | he
        · rw [reqIncoming_payload he] at hm
          exact Payload.noConfusion hm
        · by_cases hifc : ((reqTargets d).filter (unavailPred st)).length > 0
          · rw [if_pos hifc] at he
            rw [List.mem_singleton.mp he] at hm
            exact Payload.noConfusion hm
          · rw [if_neg hifc] at he
            simp at he
  · rw [handleCallRequest_inCall hb]
    intro _
    exact ⟨rfl, "Ya estás en una llamada", rfl⟩

theorem failClosed_accept (st : ServerState) (s : Socket) (d : AcceptData) (nm : String)
    (now : Nat) : FailClosed st s.sid (handleCallAccept st s d nm now) := by
  rcases hres : resolveCall st d s.userId with _ | call
  · rw [handleCallAccept_none hres]
    intro _
    exact ⟨rfl, "Llamada no encontrada", rfl⟩
  · rw [handleCallAccept_some hres]
    rintro ⟨e, hmem, herr⟩
    exfalso
    obtain ⟨m, hm⟩ := isErrorEvent_eq herr
    rcases List.mem_append.mp hmem with he | he
    · rw [mem_emitToRoom_payload he] at hm
      exact Payload.noConfusion hm
    · rw [List.mem_singleton.mp he] at hm
      exact Payload.noConfusion hm

theorem failClosed_add (st : ServerState) (s : Socket) (d : AddData) (nm : String) :
    FailClosed st s.sid (handleAddParticipant st s d nm) := by
  rcases h1 : aget st.activeCalls d.callId with _ | call
  · rw [handleAddParticipant_nocall h1]
    intro _
    exact ⟨rfl, "Llamada no encontrada", rfl⟩
  · rcases h2 : aget call.participants s.userId with _ | p
    · rw [handleAddParticipant_notMember h1 h2]
      intro _
      exact ⟨rfl, "No eres participante de esta llamada", rfl⟩
    · rcases h3 : ((aget call.participants d.targetUserId).isSome
          || smem call.pendingInvites d.targetUserId) with _ | _
      · rcases h4 : isUserInCall st d.targetUserId with _ | _
        · by_cases h5 : getUserSockets st d.targetUserId = []
          · rw [handleAddParticipant_unreachable h1 h2 h3 h4 h5]
            intro _
            exact ⟨rfl, "El usuario no está disponible", rfl⟩
          · rw [handleAddParticipant_succ h1 h2 h3 h4 h5]
            rintro ⟨e, hmem, herr⟩
            exfalso
            obtain ⟨m, hm⟩ := isErrorEvent_eq herr
            rcases List.mem_append.mp hmem with he | he
            · rcases List.mem_map.mp he with ⟨x, hx, hee⟩
              rw [← hee] at hm
              exact Payload.noConfusion hm
            · rw [mem_emitToRoom_payload he] at hm
              exact Payload.noConfusion hm
        · rw [handleAddParticipant_inOther h1 h2 h3 h4]
          intro _
          exact ⟨rfl, "El usuario está en otra llamada", rfl⟩
      · rw [handleAddParticipant_already h1 h2 h3]
        intro _
        exact ⟨rfl, "El usuario ya está en la llamada o fue invitado", rfl⟩

theorem failClosed_chat (st : ServerState) (s : Socket) (cid : Nat) (content : String)
    (snm : Option String) (now : Nat) :
    FailClosed st s.sid (handleCallChatMessage st s cid content snm now) := by
  rcases h : aget st.userCalls s.userId with _ | ucid
  · rw [handleCallChatMessage_noidx h]
    intro _
    exact ⟨rfl, "No estás en esta llamada", rfl⟩
  · by_cases h6 : ucid = cid
    · subst h6
      rcases h2 : aget st.activeCalls ucid with _ | c
      · rw [handleCallChatMessage_stale h h2]
        rintro ⟨e, hmem, herr⟩
        simp at hmem
      · rw [handleCallChatMessage_send h h2]
        rintro ⟨e, hmem, herr⟩
        exfalso
        obtain ⟨m, hm⟩ := isErrorEvent_eq herr
        rw [(mem_emitToRoomExcept hmem).1] at hm
        exact Payload.noConfusion hm
    · rw [handleCallChatMessage_other h h6]
      intro _
      exact ⟨rfl, "No estás en esta llamada", rfl⟩

/-- C8: whenever one of the four inbound handlers (start-call, accept-call,
add-participant, send-call-chat) emits a `call_error`, the error is the only
event emitted, it goes only to the acting socket, and the shared state is
untouched. -/
theorem fail_closed_validation (st : ServerState) (s : Socket) (rd : ReqData)
    (ad : AcceptData) (pd : AddData) (cid : Nat) (content : String) (snm : Option String)
    (nm : String) (now : Nat) :
    FailClosed st s.sid (handleCallRequest st s rd nm now) ∧
    FailClosed st s.sid (handleCallAccept st s ad nm now) ∧
    FailClosed st s.sid (handleAddParticipant st s pd nm) ∧
    FailClosed st s.sid (handleCallChatMessage st s cid content snm now) :=
  ⟨failClosed_request st s rd nm now, failClosed_accept st s ad nm now,
   failClosed_add st s pd nm, failClosed_chat st s cid content snm now⟩

/-- Witness for C8: a request from the empty state with an unreachable target
emits an error; the fail-closed shape then forces the untouched state and the
single error event. -/
theorem fail_closed_validation_witness :
    (handleCallRequest initState ⟨1, 10⟩ ⟨some [20], 20, "of", none⟩ "Ana" 5).1
      = initState ∧
    ∃ m, (handleCallRequest initState ⟨1, 10⟩ ⟨some [20], 20, "of", none⟩ "Ana" 5).2
      = [⟨1, Payload.callError m⟩] :=
  (fail_closed_validation initState ⟨1, 10⟩ ⟨some [20], 20, "of", none⟩ ⟨none, none⟩
    ⟨0, 0⟩ 0 "x" none "Ana" 5).1 (by decide)

/-! ## Claim C9: scalar-target compatibility -/

/-- C9: a call request whose payload has no target array is handled exactly
like the request whose target list is the singleton of its `targetUserId`
field: the entire result (state and events) coincides. -/
theorem scalar_target_compat (st : ServerState) (s : Socket) (t : Nat) (offer : String)
    (ct : Option String) (nm : String) (now : Nat) :
    handleCallRequest st s ⟨none, t, offer, ct⟩ nm now
      = handleCallRequest st s ⟨some [t], t, offer, ct⟩ nm now := rfl

/-! ## Claim C10: leave is silent outside a call -/

/-- C10: a leave event by a user with no index entry, or whose entry names an
unregistered call, emits nothing and changes nothing. -/
theorem leave_noop_outside_call (st : ServerState) (s : Socket) (reason nm : String) :
    (aget st.userCalls s.userId = none → handleCallEnd st s reason nm = (st, [])) ∧
    (∀ cid, aget st.userCalls s.userId = some cid → aget st.activeCalls cid = none →
      handleCallEnd st s reason nm = (st, [])) :=
  ⟨fun h => handleCallEnd_noidx h, fun _ h1 h2 => handleCallEnd_nocall h1 h2⟩

/-- Witness for C10: a connected user who is in no call sends leave; nothing
happens. -/
theorem leave_noop_outside_call_witness :
    handleCallEnd (run [Op.connect 1 10]) ⟨1, 10⟩ "user_ended" "Ana"
      = (run [Op.connect 1 10], []) :=
  (leave_noop_outside_call (run [Op.connect 1 10]) ⟨1, 10⟩ "user_ended" "Ana").1 (by decide)

end GestorCalls